import Mathlib

/-!
Shallow embedding of the funding-and-negotiation core of the CompInput
backend (`src/backend/routers/pledges.py`, `projects.py`, `requests.py`,
`conversations.py` and `src/backend/models.py`), together with proofs
about the claims of the specification.

Modelling conventions:
* Entity tables are association lists `List (Nat × α)` keyed by primary id;
  fresh ids are drawn from a `nextId` counter.  `AList.lookup` mirrors a
  primary-key `session.get`, `AList.upd` mirrors an ORM in-place mutation
  that is flushed at commit.
* Money fields are `Int` (minor currency units), exactly as the integer
  columns of the source.
* Python truthiness on `Optional[int]` / `Optional[str]` fields
  (`if project.origin_request_id:` etc.) is modelled by `truthyNat`,
  `truthyInt`, `truthyStr`.
* Descriptive text columns (title, description, language, level, tags)
  are not modelled: no claim depends on them and they flow through the
  handlers unchanged.
* The external gateway (Stripe) is a black box: each outbound call takes
  a boolean outcome parameter (`gatewayOk`, `refundOk`, `transferOk`);
  webhook deliveries are explicit events.  Notification rows keep the
  recipient and an enumeration of the creation site (each site uses one
  fixed content template) plus the project id appearing in the `link`.
* A handler returns the committed store paired with its HTTP outcome;
  raising `HTTPException` before any commit leaves the store unchanged.
-/

namespace CompInput

/-- Status enumeration of `models.ProjectStatus`. -/
inductive ProjectStatus where
  | draft
  | funding
  | successful
  | pending_confirmation
  | completed
  | cancelled
  | on_hold
deriving DecidableEq, Repr

/-- Status enumeration of `models.PledgeStatus`. -/
inductive PledgeStatus where
  | pending
  | captured
  | refunded
deriving DecidableEq, Repr

/-- Status enumeration of `models.RequestStatus`. -/
inductive RequestStatus where
  | open_
  | negotiating
  | accepted
  | rejected
  | cancelled
deriving DecidableEq, Repr

/-- Status enumeration of `models.ConversationStatus`. -/
inductive ConversationStatus where
  | open_
  | closed
deriving DecidableEq, Repr

/-- Status enumeration of `models.OfferStatus`. -/
inductive OfferStatus where
  | pending
  | accepted
  | rejected
deriving DecidableEq, Repr

/-- Message type enumeration of `models.MessageType`. -/
inductive MessageType where
  | text
  | offer
  | demo_request
  | demo_video
deriving DecidableEq, Repr

/-- Role enumeration of `models.UserRole`. -/
inductive UserRole where
  | student
  | teacher
  | moderator
  | admin
deriving DecidableEq, Repr

/-- The fields of `models.User` used by the funding core. -/
structure User where
  role : UserRole
  stripe_account_id : Option String
deriving DecidableEq, Repr

/-- The fields of `models.Project` used by the funding core. -/
structure Project where
  funding_goal : Int
  current_funding : Int
  status : ProjectStatus
  is_private : Bool
  stripe_transfer_id : Option String
  origin_request_id : Option Nat
  teacher_id : Option Nat
  is_series : Bool
  num_videos : Option Int
  price_per_video : Option Int
deriving DecidableEq, Repr

/-- The fields of `models.Pledge`. -/
structure Pledge where
  amount : Int
  status : PledgeStatus
  checkout_session_id : Option String
  payment_intent_id : Option String
  user_id : Nat
  project_id : Nat
deriving DecidableEq, Repr

/-- The fields of `models.Request` used by the core. -/
structure Request where
  status : RequestStatus
  user_id : Nat
  target_teacher_id : Option Nat
  is_private : Bool
deriving DecidableEq, Repr

/-- The fields of `models.Conversation` used by the core. -/
structure Conversation where
  request_id : Nat
  teacher_id : Nat
  student_id : Nat
  status : ConversationStatus
deriving DecidableEq, Repr

/-- The offer-carrying fields of `models.Message`. -/
structure Message where
  conversation_id : Nat
  message_type : MessageType
  offer_status : Option OfferStatus
  offer_price : Option Int
  offer_is_series : Option Bool
  offer_num_videos : Option Int
  offer_price_per_video : Option Int
deriving DecidableEq, Repr

/-- `models.RequestBlacklist`: one (request, teacher) exclusion row. -/
structure BlacklistEntry where
  request_id : Nat
  teacher_id : Nat
deriving DecidableEq, Repr

/-- Identifies the handler site that created a `models.Notification` row;
each site uses a single fixed content template. -/
inductive NotifKind where
  | newPledge
  | fullyFunded
  | refundedByCancel
  | requestReopened
  | fundsReleased
deriving DecidableEq, Repr

/-- A `models.Notification` row: recipient, creation site, and the project
id referenced by its `link` field (when the link names a project). -/
structure Notification where
  user_id : Option Nat
  kind : NotifKind
  project_link : Option Nat
deriving DecidableEq, Repr

/-- The entity store: one association list per table plus a fresh-id
counter standing for the autoincrement primary keys. -/
structure St where
  users : List (Nat × User)
  requests : List (Nat × Request)
  conversations : List (Nat × Conversation)
  messages : List (Nat × Message)
  projects : List (Nat × Project)
  pledges : List (Nat × Pledge)
  blacklist : List BlacklistEntry
  notifications : List Notification
  nextId : Nat
deriving Repr

namespace AList

/-- Primary-key lookup (`session.get`): the first row with key `k`. -/
def lookup : List (Nat × α) → Nat → Option α
  | [], _ => none
  | kv :: t, k => if kv.1 = k then some kv.2 else lookup t k

/-- In-place mutation of every row satisfying a predicate on the full
(key, value) pair (an ORM attribute update flushed at commit). -/
def updKV (l : List (Nat × α)) (p : Nat × α → Bool) (f : α → α) :
    List (Nat × α) :=
  l.map (fun kv => if p kv then (kv.1, f kv.2) else kv)

/-- In-place mutation of the row with key `k`. -/
def upd (l : List (Nat × α)) (k : Nat) (f : α → α) : List (Nat × α) :=
  updKV l (fun kv => kv.1 == k) f

/-- The key column of a table. -/
def keysOf (l : List (Nat × α)) : List Nat := l.map Prod.fst

end AList

open AList

/-- Python truthiness of an `Optional[int]` holding an id. -/
def truthyNat : Option Nat → Bool
  | none => false
  | some n => n != 0

/-- Python truthiness of an `Optional[int]` money/count field. -/
def truthyInt : Option Int → Bool
  | none => false
  | some n => n != 0

/-- Python truthiness of an `Optional[str]` field. -/
def truthyStr : Option String → Bool
  | none => false
  | some str => str != ""

/-- Outcome classes of the handlers: each constructor stands for one
`HTTPException` site of the source (status code and detail string). -/
inductive ApiError where
  | notFound
  | forbidden
  | projectNotActive
  | stripeError
  | offerNotPending
  | closedConversation
  | notAwaitingConfirmation
  | notABacker
  | alreadyPaidOut
  | noPayoutAccount
  | payoutFailed
  | seriesFieldsMissing
  | seriesFieldsOnNonSeries
  | cannotCancelCompleted
  | integrityError
deriving DecidableEq, Repr

/-- The JSON body returned by the webhook handler: `{"status": "success"}`
or the early `{"status": "error", ...}` for a missing correlation id. -/
inductive WebhookResp where
  | success
  | errorMissingRef
deriving DecidableEq, Repr

/-- `pledges.create_pledge_checkout_session` (pledges.py lines 46-100).
Phase 1 commits a PENDING pledge, then the gateway call is made; on
success the checkout-session id is committed onto the pledge, on
`StripeError` the handler calls `session.rollback()` — which cannot undo
the already-committed pledge row, so the PENDING pledge persists. -/
def create_pledge_checkout_session (s : St) (userId projectId : Nat)
    (amount : Int) (gatewayOk : Bool) (sessionId : String) :
    St × Except ApiError String :=
  match lookup s.projects projectId with
  | none => (s, .error .notFound)
  | some project =>
    if project.status ≠ ProjectStatus.funding then
      (s, .error .projectNotActive)
    else
      -- create the pending pledge record and commit it
      let pledgeId := s.nextId
      let s1 : St := { s with
        pledges := s.pledges ++ [(pledgeId,
          { amount := amount, status := PledgeStatus.pending,
            checkout_session_id := none, payment_intent_id := none,
            user_id := userId, project_id := projectId })],
        nextId := s.nextId + 1 }
      if gatewayOk then
        -- save the checkout session id to the pledge record and commit
        let pledges2 := upd s1.pledges pledgeId
          (fun p => { p with checkout_session_id := some sessionId })
        ({ s1 with pledges := pledges2 }, .ok sessionId)
      else
        -- rollback: only the uncommitted session-id write is discarded;
        -- the pledge committed in s1 remains
        (s1, .error .stripeError)

/-- The `checkout.session.completed` branch of `pledges.stripe_webhook`
(pledges.py lines 163-215).  `clientRef` is the parsed
`client_reference_id` (`none` when the event lacks it), `paymentIntent`
the session's `payment_intent`. -/
def webhook_checkout_completed (s : St) (clientRef : Option Nat)
    (paymentIntent : Option String) : St × WebhookResp :=
  match clientRef with
  | none => (s, .errorMissingRef)
  | some pledgeId =>
    match lookup s.pledges pledgeId with
    | none => (s, .success)
    | some pledge =>
      if pledge.status ≠ PledgeStatus.pending then
        -- replay or unknown: tolerate and acknowledge
        (s, .success)
      else
        let pledges' := upd s.pledges pledgeId
          (fun p => { p with status := PledgeStatus.captured,
                             payment_intent_id := paymentIntent })
        match lookup s.projects pledge.project_id with
        | none =>
          -- project row missing: the pledge is still captured and committed
          ({ s with pledges := pledges' }, .success)
        | some project =>
          -- the in-place `project.current_funding += pledge.amount` makes the
          -- success guard read the incremented figure
          let fires : Bool :=
            decide (project.funding_goal ≤ project.current_funding + pledge.amount)
              && (project.status == ProjectStatus.funding)
          let projects' := upd s.projects pledge.project_id
            (fun q => { q with
              current_funding := q.current_funding + pledge.amount,
              status := if fires then ProjectStatus.successful else q.status })
          let notifs :=
            [⟨project.teacher_id, NotifKind.newPledge, some pledge.project_id⟩]
            ++ (if fires then
                  [⟨project.teacher_id, NotifKind.fullyFunded, some pledge.project_id⟩]
                else [])
          ({ s with pledges := pledges', projects := projects',
                    notifications := s.notifications ++ notifs }, .success)

/-- The `charge.refunded` branch of `pledges.stripe_webhook`
(pledges.py lines 244-261): look the pledge up by the charge's
payment-intent reference; unless it is already REFUNDED, mark it
REFUNDED and decrement the project's funding. -/
def webhook_charge_refunded (s : St) (paymentIntent : String) :
    St × WebhookResp :=
  match s.pledges.find? (fun kv => kv.2.payment_intent_id == some paymentIntent) with
  | none => (s, .success)
  | some (k, pledge) =>
    if pledge.status = PledgeStatus.refunded then (s, .success)
    else
      let pledges' := upd s.pledges k
        (fun p => { p with status := PledgeStatus.refunded })
      match lookup s.projects pledge.project_id with
      | none => ({ s with pledges := pledges' }, .success)
      | some _ =>
        ({ s with pledges := pledges',
                  projects := upd s.projects pledge.project_id
                    (fun q => { q with
                      current_funding := q.current_funding - pledge.amount }) },
         .success)

/-- `projects._cancel_project_logic` (projects.py lines 106-141): refund
each CAPTURED pledge (skipping, and continuing past, any pledge whose
gateway refund fails — `refundOk` gives the per-pledge outcome of
`stripe.Refund.create`), set the project CANCELLED, and when the project
came from a request, reopen that request and blacklist the teacher.
`current_funding` is not touched by any branch of the source function. -/
def cancel_project_logic (s : St) (projectId : Nat) (project : Project)
    (refundOk : Nat → Bool) : St :=
  let pledges' := updKV s.pledges
    (fun kv => kv.2.project_id == projectId
      && kv.2.status == PledgeStatus.captured && refundOk kv.1)
    (fun p => { p with status := PledgeStatus.refunded })
  let refundNotifs := s.pledges.filterMap (fun kv =>
    if kv.2.project_id == projectId && kv.2.status == PledgeStatus.captured
        && refundOk kv.1
    then some ⟨some kv.2.user_id, NotifKind.refundedByCancel, none⟩ else none)
  let projects' := upd s.projects projectId
    (fun q => { q with status := ProjectStatus.cancelled })
  let s1 : St := { s with pledges := pledges', projects := projects',
                          notifications := s.notifications ++ refundNotifs }
  match project.origin_request_id with
  | none => s1
  | some rid =>
    if rid == 0 then s1  -- `if project.origin_request_id:` — id 0 is falsy
    else
      match lookup s1.requests rid with
      | none => s1
      | some req =>
        let s2 : St := { s1 with
          requests := upd s1.requests rid (fun r =>
            { r with status := RequestStatus.open_,
                     target_teacher_id := none, is_private := false }),
          notifications := s1.notifications
            ++ [⟨some req.user_id, NotifKind.requestReopened, none⟩] }
        match project.teacher_id with
        | none => s2
        | some tid =>
          if tid == 0 then s2  -- `if project.teacher_id:` — id 0 is falsy
          else { s2 with blacklist := s2.blacklist ++ [⟨rid, tid⟩] }

/-- `projects.cancel_project` (projects.py lines 473-491): owner/admin
only, disallowed from COMPLETED, then `_cancel_project_logic` + commit. -/
def cancel_project (s : St) (projectId callerId : Nat) (callerRole : UserRole)
    (refundOk : Nat → Bool) : St × Except ApiError Unit :=
  match lookup s.projects projectId with
  | none => (s, .error .notFound)
  | some project =>
    if project.teacher_id ≠ some callerId ∧ callerRole ≠ UserRole.admin then
      (s, .error .forbidden)
    else if project.status = ProjectStatus.completed then
      (s, .error .cannotCancelCompleted)
    else
      (cancel_project_logic s projectId project refundOk, .ok ())

/-- The fields of `schemas.ProjectCreate` used by the funding core. -/
structure ProjectCreate where
  funding_goal : Int
  is_series : Bool
  num_videos : Option Int
  price_per_video : Option Int
deriving DecidableEq, Repr

/-- The project row built by `projects.create_project`: all series fields
copied from the input, funding goal as derived, status FUNDING. -/
def build_project (p : ProjectCreate) (callerId : Nat) (fg : Int) : Project :=
  { funding_goal := fg, current_funding := 0,
    status := ProjectStatus.funding, is_private := false,
    stripe_transfer_id := none, origin_request_id := none,
    teacher_id := some callerId, is_series := p.is_series,
    num_videos := p.num_videos, price_per_video := p.price_per_video }

/-- `projects.create_project` (projects.py lines 199-225).  The guards
replicate the Python truthiness of the source: the derivation branch
requires `price_per_video` and `num_videos` to be present *and nonzero*
(`project_in.price_per_video and project_in.num_videos and
project_in.num_videos > 0`), while the rejection branch only fires for
`None` fields or `num_videos <= 0`.  (In the second guard the source
short-circuits `num_videos <= 0` when `num_videos is None`; evaluating
`getD 0 ≤ 0` there yields the same truth value.)  Returns the new
project's id. -/
def create_project (s : St) (p : ProjectCreate) (callerId : Nat)
    (callerRole : UserRole) : St × Except ApiError Nat :=
  if callerRole ≠ UserRole.teacher ∧ callerRole ≠ UserRole.admin then
    (s, .error .forbidden)
  else if p.is_series && truthyInt p.price_per_video && truthyInt p.num_videos
      && decide (0 < p.num_videos.getD 0) then
    let row := (s.nextId,
      build_project p callerId (p.price_per_video.getD 0 * p.num_videos.getD 0))
    ({ s with projects := s.projects ++ [row], nextId := s.nextId + 1 },
     .ok s.nextId)
  else if p.is_series && (p.price_per_video.isNone || p.num_videos.isNone
      || decide (p.num_videos.getD 0 ≤ 0)) then
    (s, .error .seriesFieldsMissing)
  else if !p.is_series && (p.price_per_video.isSome || p.num_videos.isSome) then
    (s, .error .seriesFieldsOnNonSeries)
  else
    let row := (s.nextId, build_project p callerId p.funding_goal)
    ({ s with projects := s.projects ++ [row], nextId := s.nextId + 1 },
     .ok s.nextId)

/-- The fields of `schemas.OfferCreate` used by the core (`is_series` is
`Optional[bool]` in the schema). -/
structure OfferCreate where
  offer_price : Int
  is_series : Option Bool
  num_videos : Option Int
  price_per_video : Option Int
deriving DecidableEq, Repr

/-- `conversations.make_offer` (conversations.py lines 444-512): teacher
only, conversation must be open; `offer_price` is derived as
`price_per_video * num_videos` when the series fields are truthy and
`num_videos > 0`, else the flat price; stores an OFFER message with
`offer_status = PENDING`.  Returns the new message's id. -/
def make_offer (s : St) (conversationId : Nat) (o : OfferCreate)
    (callerId : Nat) : St × Except ApiError Nat :=
  match lookup s.conversations conversationId with
  | none => (s, .error .notFound)
  | some conversation =>
    if callerId ≠ conversation.teacher_id then (s, .error .forbidden)
    else if conversation.status = ConversationStatus.closed then
      (s, .error .closedConversation)
    else
      let offer_price :=
        if (o.is_series == some true) && truthyInt o.price_per_video
            && truthyInt o.num_videos && decide (0 < o.num_videos.getD 0)
        then o.price_per_video.getD 0 * o.num_videos.getD 0
        else o.offer_price
      let msgId := s.nextId
      let row : Nat × Message := (msgId,
        { conversation_id := conversationId,
          message_type := MessageType.offer,
          offer_status := some OfferStatus.pending,
          offer_price := some offer_price,
          offer_is_series := o.is_series,
          offer_num_videos := o.num_videos,
          offer_price_per_video := o.price_per_video })
      ({ s with messages := s.messages ++ [row], nextId := s.nextId + 1 },
       .ok msgId)

/-- `conversations.accept_offer` (conversations.py lines 514-568): the
conversation's student accepts a PENDING offer message; atomically the
offer becomes ACCEPTED, the request ACCEPTED, a new FUNDING project is
built from the offer fields with `origin_request_id` set, and every
conversation of the request is CLOSED.  No blacklist row is written.
A missing request row, or a NULL `offer_price`/`offer_is_series` flowing
into the NOT NULL project columns, aborts the transaction before commit
(`integrityError`), leaving the store unchanged.  Returns the new
project's id. -/
def accept_offer (s : St) (messageId callerId : Nat) :
    St × Except ApiError Nat :=
  match lookup s.messages messageId with
  | none => (s, .error .notFound)
  | some m =>
    if m.message_type ≠ MessageType.offer then (s, .error .notFound)
    else
      match lookup s.conversations m.conversation_id with
      | none => (s, .error .forbidden)
      | some conversation =>
        if callerId ≠ conversation.student_id then (s, .error .forbidden)
        else if m.offer_status ≠ some OfferStatus.pending then
          (s, .error .offerNotPending)
        else
          match m.offer_price, m.offer_is_series,
                lookup s.requests conversation.request_id with
          | some price, some isSeries, some _ =>
            let messages' := upd s.messages messageId
              (fun mm => { mm with offer_status := some OfferStatus.accepted })
            let requests' := upd s.requests conversation.request_id
              (fun r => { r with status := RequestStatus.accepted })
            let projectId := s.nextId
            let newProject : Project :=
              { funding_goal := price, current_funding := 0,
                status := ProjectStatus.funding, is_private := false,
                stripe_transfer_id := none,
                origin_request_id := some conversation.request_id,
                teacher_id := some conversation.teacher_id,
                is_series := isSeries, num_videos := m.offer_num_videos,
                price_per_video := m.offer_price_per_video }
            let conversations' := updKV s.conversations
              (fun kv => kv.2.request_id == conversation.request_id)
              (fun c => { c with status := ConversationStatus.closed })
            ({ s with messages := messages', requests := requests',
                      projects := s.projects ++ [(projectId, newProject)],
                      conversations := conversations',
                      nextId := s.nextId + 1 }, .ok projectId)
          | _, _, _ => (s, .error .integrityError)

/-- Models `int(amount_collected * PLATFORM_FEE_PERCENT)` from
`projects.confirm_completion` with the default `PLATFORM_FEE_PERCENT =
0.15`: exact rational arithmetic truncated toward zero stands in for the
float product passed to `int()`. -/
def platform_fee (amount : Int) : Int := Int.tdiv (amount * 15) 100

/-- The teacher row behind `session.get(User, project.teacher_id)`
(`session.get` with a `None` key returns `None`). -/
def teacher_of (s : St) (project : Project) : Option User :=
  match project.teacher_id with
  | none => none
  | some tid => lookup s.users tid

/-- `projects.confirm_completion` (projects.py lines 420-471): only from
PENDING_CONFIRMATION, only for a CAPTURED backer, only when no payout was
issued (`if project.stripe_transfer_id:` — truthiness) and the teacher
has a connected account; a positive payout amount triggers the transfer
(outcome `transferOk`, new id `transferId`), a non-positive one skips it;
either way the project is COMPLETED and the teacher notified. -/
def confirm_completion (s : St) (projectId callerId : Nat)
    (transferOk : Bool) (transferId : String) : St × Except ApiError Unit :=
  match lookup s.projects projectId with
  | none => (s, .error .notFound)
  | some project =>
    if project.status ≠ ProjectStatus.pending_confirmation then
      (s, .error .notAwaitingConfirmation)
    else if (s.pledges.find? (fun kv => kv.2.project_id == projectId
        && kv.2.user_id == callerId
        && kv.2.status == PledgeStatus.captured)).isNone then
      (s, .error .notABacker)
    else if truthyStr project.stripe_transfer_id then
      (s, .error .alreadyPaidOut)
    else
      match teacher_of s project with
      | none => (s, .error .noPayoutAccount)
      | some teacher =>
        if ¬ truthyStr teacher.stripe_account_id then
          (s, .error .noPayoutAccount)
        else
          let amount_collected := project.current_funding
          let payout_amount := amount_collected - platform_fee amount_collected
          let releasedNotif : Notification :=
            ⟨project.teacher_id, NotifKind.fundsReleased, none⟩
          if payout_amount > 0 then
            if transferOk then
              let projects' := upd s.projects projectId (fun q =>
                { q with stripe_transfer_id := some transferId,
                         status := ProjectStatus.completed })
              ({ s with projects := projects',
                        notifications := s.notifications ++ [releasedNotif] },
               .ok ())
            else (s, .error .payoutFailed)
          else
            let projects' := upd s.projects projectId (fun q =>
              { q with status := ProjectStatus.completed })
            ({ s with projects := projects',
                      notifications := s.notifications ++ [releasedNotif] },
             .ok ())

/-- The statuses visible to non-owners in `requests.list_requests`. -/
def visibleStatuses : List RequestStatus :=
  [RequestStatus.open_, RequestStatus.negotiating]

/-- The WHERE clause of `requests.list_requests` (requests.py lines
85-132) as a predicate on one request row: the blanket
`status != CANCELLED` filter, then `or_` over the owner condition, the
public condition, and (teacher viewers only) the targeted condition, then
(teacher viewers only) the blacklist exclusion subquery.  Language/level
filters and pagination are orthogonal to visibility and not modelled. -/
def list_requests_visible (blacklist : List BlacklistEntry) (viewerId : Nat)
    (viewerRole : UserRole) (requestId : Nat) (r : Request) : Bool :=
  (r.status != RequestStatus.cancelled)
  && (let conditions :=
        [r.user_id == viewerId,
         (!r.is_private) && (visibleStatuses.contains r.status)]
        ++ (if viewerRole == UserRole.teacher then
              [(r.target_teacher_id == some viewerId)
                && (visibleStatuses.contains r.status)]
            else [])
      conditions.any id)
  && (if viewerRole == UserRole.teacher then
        !(blacklist.any (fun b =>
            b.teacher_id == viewerId && b.request_id == requestId))
      else true)

/-- The request-listing visibility predicate exactly as claim C8 words
it: owner (any status), or public with status OPEN/NEGOTIATING, or
targeted at the viewer with status OPEN/NEGOTIATING, and never a request
blacklisted for the viewer. -/
def claimC8_visible (blacklist : List BlacklistEntry) (viewerId : Nat)
    (requestId : Nat) (r : Request) : Prop :=
  (r.user_id = viewerId
    ∨ (r.is_private = false
        ∧ (r.status = RequestStatus.open_ ∨ r.status = RequestStatus.negotiating))
    ∨ (r.target_teacher_id = some viewerId
        ∧ (r.status = RequestStatus.open_ ∨ r.status = RequestStatus.negotiating)))
  ∧ ∀ b ∈ blacklist, ¬(b.teacher_id = viewerId ∧ b.request_id = requestId)

/-- The amended visibility predicate matching the source: the handler
additionally filters out CANCELLED requests for every viewer (owner
included), and both the targeted-request disjunct and the blacklist
exclusion apply only when the viewer's role is TEACHER. -/
def claimC8_amended_visible (blacklist : List BlacklistEntry) (viewerId : Nat)
    (viewerRole : UserRole) (requestId : Nat) (r : Request) : Prop :=
  r.status ≠ RequestStatus.cancelled
  ∧ (r.user_id = viewerId
      ∨ (r.is_private = false
          ∧ (r.status = RequestStatus.open_ ∨ r.status = RequestStatus.negotiating))
      ∨ (viewerRole = UserRole.teacher ∧ r.target_teacher_id = some viewerId
          ∧ (r.status = RequestStatus.open_ ∨ r.status = RequestStatus.negotiating)))
  ∧ (viewerRole = UserRole.teacher →
      ∀ b ∈ blacklist, ¬(b.teacher_id = viewerId ∧ b.request_id = requestId))

/-- The core operations of claim C1, each carrying the external inputs of
one handler invocation: checkout initiation (with the gateway outcome),
the two webhook deliveries, and project cancellation (with the per-pledge
gateway refund outcome). -/
inductive Op where
  | initPledge (userId projectId : Nat) (amount : Int)
      (gatewayOk : Bool) (sessionId : String)
  | captureHook (clientRef : Option Nat) (paymentIntent : Option String)
  | refundHook (paymentIntent : String)
  | cancelProject (projectId callerId : Nat) (callerRole : UserRole)
      (refundOk : Nat → Bool)

/-- The state reached by one handler invocation (responses discarded). -/
def step (s : St) : Op → St
  | .initPledge u p a ok sid => (create_pledge_checkout_session s u p a ok sid).1
  | .captureHook cr intent => (webhook_checkout_completed s cr intent).1
  | .refundHook intent => (webhook_charge_refunded s intent).1
  | .cancelProject p c role ok => (cancel_project s p c role ok).1

/-- The state after a sequence of core operations. -/
def run (s : St) (ops : List Op) : St := ops.foldl step s

/-- Whether an operation is a project cancellation. -/
def Op.isCancel : Op → Bool
  | .cancelProject _ _ _ _ => true
  | _ => false

/-- Checkout initiations in scope of claim C1 carry a nonnegative amount
(minor currency units). -/
def Op.amountOk : Op → Prop
  | .initPledge _ _ a _ _ => 0 ≤ a
  | _ => True

instance : DecidablePred Op.amountOk := by
  intro op
  cases op <;> simp only [Op.amountOk] <;> infer_instance

/-- The contribution of one pledge row to the captured sum of project
`pid`. -/
def pledgeContrib (pid : Nat) (kv : Nat × Pledge) : Int :=
  if kv.2.project_id = pid ∧ kv.2.status = PledgeStatus.captured then
    kv.2.amount
  else 0

/-- The sum of the amounts of the CAPTURED pledges of project `pid`. -/
def sumCaptured (pledges : List (Nat × Pledge)) (pid : Nat) : Int :=
  (pledges.map (pledgeContrib pid)).sum

/-- Store wellformedness: pledge keys are distinct and below the id
counter, amounts are nonnegative, every pledge references an existing
project, and a PENDING pledge carries no payment-intent reference (the
intent is recorded exactly when the pledge is captured). -/
def WF (s : St) : Prop :=
  (keysOf s.pledges).Nodup
  ∧ (∀ kv ∈ s.pledges, kv.1 < s.nextId)
  ∧ (∀ kv ∈ s.pledges, 0 ≤ kv.2.amount)
  ∧ (∀ kv ∈ s.pledges, kv.2.project_id ∈ keysOf s.projects)
  ∧ (∀ kv ∈ s.pledges,
      kv.2.status = PledgeStatus.pending → kv.2.payment_intent_id = none)

/-- The claimed invariant: every project's `current_funding` equals the
sum of its CAPTURED pledge amounts. -/
def FundingEq (s : St) : Prop :=
  ∀ kv ∈ s.projects, kv.2.current_funding = sumCaptured s.pledges kv.1

/-- The weaker invariant that survives cancellation: `current_funding`
dominates the captured sum. -/
def FundingGe (s : St) : Prop :=
  ∀ kv ∈ s.projects, sumCaptured s.pledges kv.1 ≤ kv.2.current_funding

instance (s : St) : Decidable (WF s) := by
  unfold WF
  infer_instance

instance (s : St) : Decidable (FundingEq s) := by
  unfold FundingEq
  infer_instance

instance (s : St) : Decidable (FundingGe s) := by
  unfold FundingGe
  infer_instance

/-- One checkout-completed webhook delivery, as state transformer. -/
def capStep (s : St) (e : Option Nat × Option String) : St :=
  (webhook_checkout_completed s e.1 e.2).1

/-- A sequence of checkout-completed webhook deliveries. -/
def capRun (s : St) (evs : List (Option Nat × Option String)) : St :=
  evs.foldl capStep s

/-- The status of project `pid` in store `s`. -/
def statusAt (s : St) (pid : Nat) : Option ProjectStatus :=
  (lookup s.projects pid).map Project.status

/-- Whether delivery `e` makes project `pid` transition to SUCCESSFUL. -/
def fireAt (s : St) (e : Option Nat × Option String) (pid : Nat) : Bool :=
  (statusAt s pid != some ProjectStatus.successful)
  && (statusAt (capStep s e) pid == some ProjectStatus.successful)

/-- How many deliveries of the sequence fire the SUCCESSFUL transition of
project `pid`. -/
def fireCount (s : St) (pid : Nat) : List (Option Nat × Option String) → Nat
  | [] => 0
  | e :: evs => (if fireAt s e pid then 1 else 0) + fireCount (capStep s e) pid evs

/-- How many fully-funded notifications exist for project `pid`. -/
def goalNotifCount (s : St) (pid : Nat) : Nat :=
  (s.notifications.filter (fun n =>
    n.kind == NotifKind.fullyFunded && n.project_link == some pid)).length

namespace AList

theorem lookup_updKV (l : List (Nat × α)) (p : Nat × α → Bool) (f : α → α)
    (k : Nat) :
    lookup (updKV l p f) k
      = (lookup l k).map (fun v => if p (k, v) then f v else v) := by
  induction l with
  | nil => rfl
  | cons kv t ih =>
    obtain ⟨k1, v1⟩ := kv
    by_cases h : k1 = k
    · subst h
      by_cases hp : p (k1, v1) <;> simp [updKV, lookup, hp]
    · by_cases hp : p (k1, v1) <;>
        simpa [updKV, lookup, h, hp] using ih

theorem lookup_upd_self (l : List (Nat × α)) (k : Nat) (f : α → α) :
    lookup (upd l k f) k = (lookup l k).map f := by
  rw [upd, lookup_updKV]
  cases lookup l k <;> simp

theorem lookup_upd_ne (l : List (Nat × α)) (k : Nat) (f : α → α) (j : Nat)
    (h : j ≠ k) :
    lookup (upd l k f) j = lookup l j := by
  rw [upd, lookup_updKV]
  cases lookup l j <;> simp [h]

theorem lookup_append_left (l₁ l₂ : List (Nat × α)) (k : Nat) (v : α)
    (h : lookup l₁ k = some v) :
    lookup (l₁ ++ l₂) k = some v := by
  induction l₁ with
  | nil => simp [lookup] at h
  | cons kv t ih =>
    by_cases hk : kv.1 = k
    · simp only [lookup, hk, if_true] at h
      simpa [lookup, hk] using h
    · simp only [lookup, hk, if_false] at h
      simpa only [List.cons_append, lookup, hk, if_false] using ih h

theorem lookup_append_right (l₁ l₂ : List (Nat × α)) (k : Nat)
    (h : lookup l₁ k = none) :
    lookup (l₁ ++ l₂) k = lookup l₂ k := by
  induction l₁ with
  | nil => rfl
  | cons kv t ih =>
    by_cases hk : kv.1 = k
    · simp [lookup, hk] at h
    · simp only [lookup, hk, if_false] at h
      simpa only [List.cons_append, lookup, hk, if_false] using ih h

theorem lookup_eq_none_iff (l : List (Nat × α)) (k : Nat) :
    lookup l k = none ↔ k ∉ keysOf l := by
  induction l with
  | nil => simp [lookup, keysOf]
  | cons kv t ih =>
    simp only [keysOf, List.map_cons, List.mem_cons, not_or] at ih ⊢
    by_cases hk : kv.1 = k
    · simp [lookup, hk]
    · have hk' : ¬ k = kv.1 := fun h => hk h.symm
      simp only [lookup, hk, if_false]
      rw [ih]
      tauto

theorem mem_of_lookup_eq_some (l : List (Nat × α)) (k : Nat) (v : α)
    (h : lookup l k = some v) : (k, v) ∈ l := by
  induction l with
  | nil => simp [lookup] at h
  | cons kv t ih =>
    obtain ⟨k1, v1⟩ := kv
    by_cases hk : k1 = k
    · subst hk
      simp only [lookup, if_true] at h
      cases h
      exact List.mem_cons_self _ _
    · simp only [lookup, hk, if_false] at h
      exact List.mem_cons_of_mem _ (ih h)

theorem keysOf_updKV (l : List (Nat × α)) (p : Nat × α → Bool) (f : α → α) :
    keysOf (updKV l p f) = keysOf l := by
  simp only [keysOf, updKV, List.map_map]
  refine List.map_congr_left (fun kv _ => ?_)
  by_cases hp : p kv <;> simp [hp]

theorem keysOf_upd (l : List (Nat × α)) (k : Nat) (f : α → α) :
    keysOf (upd l k f) = keysOf l := by
  rw [upd, keysOf_updKV]

theorem keysOf_append (l₁ l₂ : List (Nat × α)) :
    keysOf (l₁ ++ l₂) = keysOf l₁ ++ keysOf l₂ := by
  simp [keysOf]

theorem exists_of_mem_updKV {l : List (Nat × α)} {p : Nat × α → Bool}
    {f : α → α} {kv' : Nat × α} (h : kv' ∈ updKV l p f) :
    ∃ kv, kv ∈ l ∧ kv' = if p kv then (kv.1, f kv.2) else kv := by
  simp only [updKV, List.mem_map] at h
  obtain ⟨kv, hm, he⟩ := h
  exact ⟨kv, hm, he.symm⟩

theorem updKV_eq_self (l : List (Nat × α)) (p : Nat × α → Bool) (f : α → α)
    (h : ∀ kv ∈ l, p kv = false) : updKV l p f = l := by
  simp only [updKV]
  calc l.map (fun kv => if p kv then (kv.1, f kv.2) else kv)
      = l.map id := List.map_congr_left (fun kv hm => by simp [h kv hm])
    _ = l := List.map_id l

theorem sum_map_upd (l : List (Nat × α)) (k : Nat) (f : α → α)
    (g : Nat × α → Int) (hnd : (keysOf l).Nodup) (v : α)
    (hv : lookup l k = some v) :
    ((upd l k f).map g).sum = (l.map g).sum - g (k, v) + g (k, f v) := by
  induction l with
  | nil => simp [lookup] at hv
  | cons kv t ih =>
    obtain ⟨k1, v1⟩ := kv
    rw [show keysOf ((k1, v1) :: t) = k1 :: keysOf t from rfl,
      List.nodup_cons] at hnd
    obtain ⟨hk1, hnd'⟩ := hnd
    by_cases hk : k1 = k
    · subst hk
      simp only [lookup, if_true] at hv
      cases hv
      have ht : updKV t (fun kv => kv.1 == k1) f = t := by
        refine updKV_eq_self _ _ _ (fun kv hm => ?_)
        simp only [beq_eq_false_iff_ne, ne_eq]
        intro he
        exact hk1 (he ▸ List.mem_map_of_mem Prod.fst hm)
      simp only [upd, updKV, List.map_cons, List.sum_cons]
      rw [show (t.map fun kv => if kv.1 == k1 then (kv.1, f kv.2) else kv)
            = updKV t (fun kv => kv.1 == k1) f from rfl, ht]
      simp only [beq_self_eq_true, if_true]
      ring
    · have hbk : (k1 == k) = false := by
        simpa using hk
      simp only [lookup, hk, if_false] at hv
      simp only [upd, updKV, List.map_cons, hbk, Bool.false_eq_true, if_false,
        List.sum_cons]
      rw [show (t.map fun kv => if kv.1 == k then (kv.1, f kv.2) else kv)
            = upd t k f from rfl, ih hnd' hv]
      ring

theorem sum_map_updKV_le (l : List (Nat × α)) (p : Nat × α → Bool)
    (f : α → α) (g : Nat × α → Int)
    (h : ∀ kv ∈ l, g (kv.1, f kv.2) ≤ g kv) :
    ((updKV l p f).map g).sum ≤ (l.map g).sum := by
  rw [updKV, List.map_map]
  refine List.sum_le_sum (fun kv hm => ?_)
  by_cases hp : p kv <;> simp [Function.comp, hp, h kv hm]

theorem sum_map_updKV_congr (l : List (Nat × α)) (p : Nat × α → Bool)
    (f : α → α) (g : Nat × α → Int)
    (h : ∀ kv ∈ l, g (kv.1, f kv.2) = g kv) :
    ((updKV l p f).map g).sum = (l.map g).sum := by
  rw [updKV, List.map_map]
  refine congrArg List.sum (List.map_congr_left (fun kv hm => ?_))
  by_cases hp : p kv <;> simp [Function.comp, hp, h kv hm]

theorem sum_map_nonneg (l : List (Nat × α)) (g : Nat × α → Int)
    (h : ∀ kv ∈ l, 0 ≤ g kv) : 0 ≤ (l.map g).sum := by
  induction l with
  | nil => simp
  | cons kv t ih =>
    simp only [List.map_cons, List.sum_cons]
    have h1 := h kv (List.mem_cons_self _ _)
    have h2 := ih (fun kv hm => h kv (List.mem_cons_of_mem _ hm))
    omega

theorem forall_updKV {l : List (Nat × α)} {p : Nat × α → Bool} {f : α → α}
    {P : Nat × α → Prop} (h0 : ∀ kv ∈ l, P kv)
    (hf : ∀ kv ∈ l, P kv → P (kv.1, f kv.2)) :
    ∀ kv ∈ updKV l p f, P kv := by
  intro kv hm
  obtain ⟨kv0, hm0, he⟩ := exists_of_mem_updKV hm
  by_cases hp : p kv0
  · rw [he, if_pos hp]
    exact hf kv0 hm0 (h0 kv0 hm0)
  · rw [he, if_neg hp]
    exact h0 kv0 hm0

theorem mem_keys_of_lookup_eq_some {l : List (Nat × α)} {k : Nat} {v : α}
    (h : lookup l k = some v) : k ∈ keysOf l := by
  by_contra hc
  rw [← lookup_eq_none_iff l k] at hc
  rw [h] at hc
  cases hc

theorem lookup_of_mem_nodup {l : List (Nat × α)} {k : Nat} {v : α}
    (hnd : (keysOf l).Nodup) (hm : (k, v) ∈ l) : lookup l k = some v := by
  induction l with
  | nil => cases hm
  | cons kv t ih =>
    obtain ⟨k1, v1⟩ := kv
    rw [show keysOf ((k1, v1) :: t) = k1 :: keysOf t from rfl,
      List.nodup_cons] at hnd
    rcases List.mem_cons.mp hm with he | ht
    · cases he
      simp [lookup]
    · have hk : k ∈ keysOf t := List.mem_map_of_mem Prod.fst ht
      have hne : k1 ≠ k := fun h => hnd.1 (h ▸ hk)
      simp only [lookup, hne, if_false]
      exact ih hnd.2 ht

end AList

theorem capture_preserves (s : St) (cr : Option Nat) (intent : Option String)
    (hwf : WF s) :
    WF (webhook_checkout_completed s cr intent).1
    ∧ (FundingEq s → FundingEq (webhook_checkout_completed s cr intent).1)
    ∧ (FundingGe s → FundingGe (webhook_checkout_completed s cr intent).1) := by
  cases cr with
  | none => exact ⟨hwf, fun h => h, fun h => h⟩
  | some cid =>
    simp only [webhook_checkout_completed]
    cases hpl : AList.lookup s.pledges cid with
    | none => exact ⟨hwf, fun h => h, fun h => h⟩
    | some pl =>
      by_cases hst : pl.status = PledgeStatus.pending
      · simp only [hst, ne_eq, not_true_eq_false, if_false]
        obtain ⟨hnd, hlt, hamt, hprojm, hpend⟩ := hwf
        have hmem : (cid, pl) ∈ s.pledges := AList.mem_of_lookup_eq_some _ _ _ hpl
        cases hpr : AList.lookup s.projects pl.project_id with
        | none =>
          exact absurd ((AList.lookup_eq_none_iff _ _).mp hpr) (by
            simpa using hprojm (cid, pl) hmem)
        | some pr =>
          dsimp only
          have hsum : ∀ q, sumCaptured
              (AList.upd s.pledges cid (fun p =>
                { p with status := PledgeStatus.captured,
                         payment_intent_id := intent })) q
              = sumCaptured s.pledges q
                + (if pl.project_id = q then pl.amount else 0) := by
            intro q
            rw [sumCaptured, AList.sum_map_upd _ _ _ _ hnd pl hpl]
            have h1 : pledgeContrib q (cid, pl) = 0 := by
              simp [pledgeContrib, hst]
            have h2 : pledgeContrib q (cid,
                { pl with status := PledgeStatus.captured,
                          payment_intent_id := intent })
                = if pl.project_id = q then pl.amount else 0 := by
              by_cases hq : pl.project_id = q <;> simp [pledgeContrib, hq]
            rw [h1, h2, sumCaptured]
            ring
          refine ⟨⟨?_, ?_, ?_, ?_, ?_⟩, ?_, ?_⟩
          · dsimp only
            rw [AList.keysOf_upd]
            exact hnd
          · dsimp only
            exact AList.forall_updKV hlt (fun kv hm h => h)
          · dsimp only
            exact AList.forall_updKV hamt (fun kv hm h => h)
          · dsimp only
            rw [AList.keysOf_upd]
            exact AList.forall_updKV hprojm (fun kv hm h => h)
          · dsimp only
            exact AList.forall_updKV hpend (fun kv hm h hp => absurd hp (by simp))
          · intro heq kv hm
            dsimp only at hm ⊢
            obtain ⟨kv0, hm0, he⟩ := AList.exists_of_mem_updKV hm
            by_cases hq : (kv0.1 == pl.project_id)
            · have hqe : kv0.1 = pl.project_id := by simpa using hq
              rw [he, if_pos hq]
              show kv0.2.current_funding + pl.amount = _
              rw [hsum kv0.1, heq kv0 hm0, hqe, if_pos rfl]
            · have hqe : kv0.1 ≠ pl.project_id := by
                intro h
                rw [h] at hq
                exact hq (by simp)
              rw [he, if_neg hq]
              rw [hsum kv0.1, if_neg (fun h => hqe h.symm), heq kv0 hm0]
              ring
          · intro hge kv hm
            dsimp only at hm ⊢
            obtain ⟨kv0, hm0, he⟩ := AList.exists_of_mem_updKV hm
            by_cases hq : (kv0.1 == pl.project_id)
            · have hqe : kv0.1 = pl.project_id := by simpa using hq
              rw [he, if_pos hq]
              show _ ≤ kv0.2.current_funding + pl.amount
              rw [hsum kv0.1, hqe, if_pos rfl]
              have := hge kv0 hm0
              rw [hqe] at this
              omega
            · have hqe : kv0.1 ≠ pl.project_id := by
                intro h
                rw [h] at hq
                exact hq (by simp)
              rw [he, if_neg hq]
              rw [hsum kv0.1, if_neg (fun h => hqe h.symm)]
              have := hge kv0 hm0
              omega
      · simp only [hst, ne_eq, not_false_eq_true, if_true]
        exact ⟨hwf, fun h => h, fun h => h⟩

theorem init_preserves (s : St) (u pid : Nat) (a : Int) (ok : Bool)
    (sid : String) (hwf : WF s) (ha : 0 ≤ a) :
    WF (create_pledge_checkout_session s u pid a ok sid).1
    ∧ (FundingEq s → FundingEq (create_pledge_checkout_session s u pid a ok sid).1)
    ∧ (FundingGe s → FundingGe (create_pledge_checkout_session s u pid a ok sid).1) := by
  obtain ⟨hnd, hlt, hamt, hprojm, hpend⟩ := hwf
  simp only [create_pledge_checkout_session]
  cases hpr : AList.lookup s.projects pid with
  | none => exact ⟨⟨hnd, hlt, hamt, hprojm, hpend⟩, fun h => h, fun h => h⟩
  | some project =>
    by_cases hst : project.status = ProjectStatus.funding
    · simp only [hst, ne_eq, not_true_eq_false, if_false]
      have hfresh : s.nextId ∉ AList.keysOf s.pledges := by
        intro hmem
        obtain ⟨kv, hkv, hke⟩ := List.mem_map.mp hmem
        exact absurd (hke ▸ hlt kv hkv) (lt_irrefl _)
      have hpidk : pid ∈ AList.keysOf s.projects :=
        AList.mem_keys_of_lookup_eq_some hpr
      have hnd1 : ∀ np : Pledge,
          (AList.keysOf (s.pledges ++ [(s.nextId, np)])).Nodup := by
        intro np
        rw [AList.keysOf_append]
        rw [List.nodup_append]
        refine ⟨hnd, List.nodup_singleton _, ?_⟩
        intro x hx hx2
        simp only [AList.keysOf, List.map_cons, List.map_nil,
          List.mem_singleton] at hx2
        exact hfresh (hx2 ▸ hx)
      have hsum1 : ∀ np : Pledge, np.status = PledgeStatus.pending →
          ∀ q, sumCaptured (s.pledges ++ [(s.nextId, np)]) q
            = sumCaptured s.pledges q := by
        intro np hnp q
        simp [sumCaptured, pledgeContrib, hnp]
      have hwf1 : ∀ np : Pledge, 0 ≤ np.amount → np.project_id = pid →
          np.status = PledgeStatus.pending → np.payment_intent_id = none →
          ∀ kv ∈ s.pledges ++ [(s.nextId, np)],
          kv.1 < s.nextId + 1 ∧ 0 ≤ kv.2.amount
          ∧ kv.2.project_id ∈ AList.keysOf s.projects
          ∧ (kv.2.status = PledgeStatus.pending →
              kv.2.payment_intent_id = none) := by
        intro np hna hnp hns hni kv hm
        rcases List.mem_append.mp hm with hm | hm
        · exact ⟨Nat.lt_succ_of_lt (hlt kv hm), hamt kv hm, hprojm kv hm,
            hpend kv hm⟩
        · simp only [List.mem_singleton] at hm
          subst hm
          exact ⟨Nat.lt_succ_self _, hna, hnp ▸ hpidk, fun _ => hni⟩
      have hw2 := hwf1 ⟨a, PledgeStatus.pending, none, none, u, pid⟩
        ha rfl rfl rfl
      have hs2 := hsum1 ⟨a, PledgeStatus.pending, none, none, u, pid⟩ rfl
      have hn2 := hnd1 ⟨a, PledgeStatus.pending, none, none, u, pid⟩
      by_cases hok : ok = true
      case neg =>
        simp only [if_neg hok]
        refine ⟨⟨hn2, ?_, ?_, ?_, ?_⟩, ?_, ?_⟩
        · exact fun kv hm => (hw2 kv hm).1
        · exact fun kv hm => (hw2 kv hm).2.1
        · exact fun kv hm => (hw2 kv hm).2.2.1
        · exact fun kv hm => (hw2 kv hm).2.2.2
        · intro heq kv hm
          rw [hs2 kv.1]
          exact heq kv hm
        · intro hge kv hm
          rw [hs2 kv.1]
          exact hge kv hm
      case pos =>
        simp only [if_pos hok]
        have hsum2 : ∀ (l : List (Nat × Pledge)) q,
            sumCaptured (AList.upd l s.nextId
              (fun p => { p with checkout_session_id := some sid })) q
            = sumCaptured l q := by
          intro l q
          rw [AList.upd, sumCaptured, sumCaptured]
          exact AList.sum_map_updKV_congr _ _ _ _ (fun kv hm => by
            simp [pledgeContrib])
        refine ⟨⟨?_, ?_, ?_, ?_, ?_⟩, ?_, ?_⟩
        · dsimp only
          rw [AList.keysOf_upd]
          exact hn2
        · dsimp only
          refine AList.forall_updKV ?_ ?_
          · exact fun kv hm => (hw2 kv hm).1
          · exact fun kv hm h => h
        · dsimp only
          refine AList.forall_updKV ?_ ?_
          · exact fun kv hm => (hw2 kv hm).2.1
          · exact fun kv hm h => h
        · dsimp only
          refine AList.forall_updKV ?_ ?_
          · exact fun kv hm => (hw2 kv hm).2.2.1
          · exact fun kv hm h => h
        · dsimp only
          refine AList.forall_updKV ?_ ?_
          · exact fun kv hm => (hw2 kv hm).2.2.2
          · exact fun kv hm h => h
        · intro heq kv hm
          dsimp only at hm ⊢
          rw [hsum2, hs2 kv.1]
          exact heq kv hm
        · intro hge kv hm
          dsimp only at hm ⊢
          rw [hsum2, hs2 kv.1]
          exact hge kv hm
    · have hcond : project.status ≠ ProjectStatus.funding := hst
      simp only [if_pos hcond]
      exact ⟨⟨hnd, hlt, hamt, hprojm, hpend⟩, fun h => h, fun h => h⟩

theorem refund_preserves (s : St) (intent : String) (hwf : WF s) :
    WF (webhook_charge_refunded s intent).1
    ∧ (FundingEq s → FundingEq (webhook_charge_refunded s intent).1)
    ∧ (FundingGe s → FundingGe (webhook_charge_refunded s intent).1) := by
  obtain ⟨hnd, hlt, hamt, hprojm, hpend⟩ := hwf
  simp only [webhook_charge_refunded]
  cases hf : s.pledges.find? (fun kv => kv.2.payment_intent_id == some intent) with
  | none => exact ⟨⟨hnd, hlt, hamt, hprojm, hpend⟩, fun h => h, fun h => h⟩
  | some kpl =>
    obtain ⟨k, pl⟩ := kpl
    dsimp only
    have hmem : (k, pl) ∈ s.pledges := List.mem_of_find?_eq_some hf
    have hpi : pl.payment_intent_id = some intent := by
      have hp := List.find?_some hf
      simpa using hp
    by_cases href : pl.status = PledgeStatus.refunded
    · rw [if_pos href]
      exact ⟨⟨hnd, hlt, hamt, hprojm, hpend⟩, fun h => h, fun h => h⟩
    · have hcap : pl.status = PledgeStatus.captured := by
        cases hcs : pl.status with
        | pending =>
          have h0 := hpend (k, pl) hmem hcs
          rw [h0] at hpi
          cases hpi
        | captured => rfl
        | refunded => exact absurd hcs href
      have hlk : AList.lookup s.pledges k = some pl :=
        AList.lookup_of_mem_nodup hnd hmem
      rw [if_neg href]
      cases hpr : AList.lookup s.projects pl.project_id with
      | none =>
        exact absurd ((AList.lookup_eq_none_iff _ _).mp hpr) (by
          simpa using hprojm (k, pl) hmem)
      | some pr =>
        dsimp only
        have hsum : ∀ q, sumCaptured (AList.upd s.pledges k
            (fun p => { p with status := PledgeStatus.refunded })) q
            = sumCaptured s.pledges q
              - (if pl.project_id = q then pl.amount else 0) := by
          intro q
          rw [sumCaptured, AList.sum_map_upd _ _ _ _ hnd pl hlk]
          have h1 : pledgeContrib q (k, pl)
              = if pl.project_id = q then pl.amount else 0 := by
            by_cases hq : pl.project_id = q <;> simp [pledgeContrib, hq, hcap]
          have h2 : pledgeContrib q (k,
              { pl with status := PledgeStatus.refunded }) = 0 := by
            simp [pledgeContrib]
          rw [h1, h2, sumCaptured]
          ring
        refine ⟨⟨?_, ?_, ?_, ?_, ?_⟩, ?_, ?_⟩
        · dsimp only
          rw [AList.keysOf_upd]
          exact hnd
        · dsimp only
          refine AList.forall_updKV ?_ ?_
          · exact hlt
          · exact fun kv hm h => h
        · dsimp only
          refine AList.forall_updKV ?_ ?_
          · exact hamt
          · exact fun kv hm h => h
        · dsimp only
          rw [AList.keysOf_upd]
          refine AList.forall_updKV ?_ ?_
          · exact hprojm
          · exact fun kv hm h => h
        · dsimp only
          refine AList.forall_updKV ?_ ?_
          · exact hpend
          · exact fun kv hm h hp => absurd hp (by simp)
        · intro heq kv hm
          dsimp only at hm ⊢
          obtain ⟨kv0, hm0, he⟩ := AList.exists_of_mem_updKV hm
          by_cases hq : (kv0.1 == pl.project_id)
          · have hqe : kv0.1 = pl.project_id := by simpa using hq
            rw [he, if_pos hq]
            show kv0.2.current_funding - pl.amount = _
            rw [hsum kv0.1, heq kv0 hm0, hqe, if_pos rfl]
          · have hqe : kv0.1 ≠ pl.project_id := by
              intro h
              rw [h] at hq
              exact hq (by simp)
            rw [he, if_neg hq]
            rw [hsum kv0.1, if_neg (fun h => hqe h.symm), heq kv0 hm0]
            ring
        · intro hge kv hm
          dsimp only at hm ⊢
          obtain ⟨kv0, hm0, he⟩ := AList.exists_of_mem_updKV hm
          by_cases hq : (kv0.1 == pl.project_id)
          · have hqe : kv0.1 = pl.project_id := by simpa using hq
            rw [he, if_pos hq]
            show _ ≤ kv0.2.current_funding - pl.amount
            rw [hsum kv0.1, hqe, if_pos rfl]
            have := hge kv0 hm0
            rw [hqe] at this
            omega
          · have hqe : kv0.1 ≠ pl.project_id := by
              intro h
              rw [h] at hq
              exact hq (by simp)
            rw [he, if_neg hq]
            rw [hsum kv0.1, if_neg (fun h => hqe h.symm)]
            have := hge kv0 hm0
            omega

theorem cancel_logic_fields (s : St) (pid : Nat) (project : Project)
    (refundOk : Nat → Bool) :
    (cancel_project_logic s pid project refundOk).pledges
      = updKV s.pledges (fun kv => kv.2.project_id == pid
          && kv.2.status == PledgeStatus.captured && refundOk kv.1)
          (fun p => { p with status := PledgeStatus.refunded })
    ∧ (cancel_project_logic s pid project refundOk).projects
      = AList.upd s.projects pid
          (fun q => { q with status := ProjectStatus.cancelled })
    ∧ (cancel_project_logic s pid project refundOk).nextId = s.nextId := by
  simp only [cancel_project_logic]
  cases project.origin_request_id with
  | none => exact ⟨rfl, rfl, rfl⟩
  | some rid =>
    dsimp only
    by_cases hr : (rid == 0) = true
    · rw [if_pos hr]
      exact ⟨rfl, rfl, rfl⟩
    · rw [if_neg hr]
      cases AList.lookup s.requests rid with
      | none => exact ⟨rfl, rfl, rfl⟩
      | some req =>
        dsimp only
        cases project.teacher_id with
        | none => exact ⟨rfl, rfl, rfl⟩
        | some tid =>
          dsimp only
          by_cases ht : (tid == 0) = true
          · rw [if_pos ht]
            exact ⟨rfl, rfl, rfl⟩
          · rw [if_neg ht]
            exact ⟨rfl, rfl, rfl⟩

theorem cancel_preserves (s : St) (pid cid : Nat) (role : UserRole)
    (refundOk : Nat → Bool) (hwf : WF s) :
    WF (cancel_project s pid cid role refundOk).1
    ∧ (FundingGe s → FundingGe (cancel_project s pid cid role refundOk).1) := by
  obtain ⟨hnd, hlt, hamt, hprojm, hpend⟩ := hwf
  simp only [cancel_project]
  cases hpr : AList.lookup s.projects pid with
  | none => exact ⟨⟨hnd, hlt, hamt, hprojm, hpend⟩, fun h => h⟩
  | some project =>
    dsimp only
    by_cases hauth : (project.teacher_id ≠ some cid ∧ role ≠ UserRole.admin)
    · rw [if_pos hauth]
      exact ⟨⟨hnd, hlt, hamt, hprojm, hpend⟩, fun h => h⟩
    · rw [if_neg hauth]
      by_cases hcomp : project.status = ProjectStatus.completed
      · rw [if_pos hcomp]
        exact ⟨⟨hnd, hlt, hamt, hprojm, hpend⟩, fun h => h⟩
      · rw [if_neg hcomp]
        obtain ⟨hpl, hprj, hnx⟩ := cancel_logic_fields s pid project refundOk
        have hsumle : ∀ q, sumCaptured
            (cancel_project_logic s pid project refundOk).pledges q
            ≤ sumCaptured s.pledges q := by
          intro q
          rw [hpl, sumCaptured, sumCaptured]
          refine AList.sum_map_updKV_le _ _ _ _ (fun kv hm => ?_)
          have h0 : pledgeContrib q (kv.1,
              { kv.2 with status := PledgeStatus.refunded }) = 0 := by
            simp [pledgeContrib]
          rw [h0]
          by_cases hq : (kv.2.project_id = q ∧ kv.2.status = PledgeStatus.captured)
          · rw [pledgeContrib, if_pos hq]
            exact hamt kv hm
          · rw [pledgeContrib, if_neg hq]
        refine ⟨⟨?_, ?_, ?_, ?_, ?_⟩, ?_⟩
        · rw [show AList.keysOf (cancel_project_logic s pid project refundOk).pledges
              = AList.keysOf s.pledges from by rw [hpl, AList.keysOf_updKV]]
          exact hnd
        · rw [hpl, hnx]
          refine AList.forall_updKV ?_ ?_
          · exact hlt
          · exact fun kv hm h => h
        · rw [hpl]
          refine AList.forall_updKV ?_ ?_
          · exact hamt
          · exact fun kv hm h => h
        · rw [hpl, hprj, AList.keysOf_upd]
          refine AList.forall_updKV ?_ ?_
          · exact hprojm
          · exact fun kv hm h => h
        · rw [hpl]
          refine AList.forall_updKV ?_ ?_
          · exact hpend
          · exact fun kv hm h hp => absurd hp (by simp)
        · intro hge kv hm
          rw [hprj] at hm
          obtain ⟨kv0, hm0, he⟩ := AList.exists_of_mem_updKV hm
          have hfund : kv.2.current_funding = kv0.2.current_funding := by
            by_cases hq : (kv0.1 == pid)
            · rw [he, if_pos hq]
            · rw [he, if_neg hq]
          have hkey : kv.1 = kv0.1 := by
            by_cases hq : (kv0.1 == pid)
            · rw [he, if_pos hq]
            · rw [he, if_neg hq]
          rw [hfund, hkey]
          exact le_trans (hsumle kv0.1) (hge kv0 hm0)

theorem step_preserves (s : St) (op : Op) (hwf : WF s) (ha : op.amountOk) :
    WF (step s op)
    ∧ (FundingGe s → FundingGe (step s op))
    ∧ (FundingEq s → op.isCancel = false → FundingEq (step s op)) := by
  cases op with
  | initPledge u p a ok sid =>
    obtain ⟨h1, h2, h3⟩ := init_preserves s u p a ok sid hwf ha
    exact ⟨h1, h3, fun he _ => h2 he⟩
  | captureHook cr intent =>
    obtain ⟨h1, h2, h3⟩ := capture_preserves s cr intent hwf
    exact ⟨h1, h3, fun he _ => h2 he⟩
  | refundHook intent =>
    obtain ⟨h1, h2, h3⟩ := refund_preserves s intent hwf
    exact ⟨h1, h3, fun he _ => h2 he⟩
  | cancelProject p c role ok =>
    obtain ⟨h1, h2⟩ := cancel_preserves s p c role ok hwf
    refine ⟨h1, h2, fun _ hc => ?_⟩
    simp [Op.isCancel] at hc

theorem run_preserves (s : St) (ops : List Op) (hwf : WF s)
    (ha : ∀ op ∈ ops, op.amountOk) :
    WF (run s ops)
    ∧ (FundingGe s → FundingGe (run s ops))
    ∧ (FundingEq s → (∀ op ∈ ops, op.isCancel = false) →
        FundingEq (run s ops)) := by
  induction ops generalizing s with
  | nil => exact ⟨hwf, fun h => h, fun h _ => h⟩
  | cons op ops ih =>
    obtain ⟨h1, h2, h3⟩ := step_preserves s op hwf (ha op (List.mem_cons_self _ _))
    obtain ⟨g1, g2, g3⟩ :=
      ih (step s op) h1 (fun o hm => ha o (List.mem_cons_of_mem _ hm))
    refine ⟨g1, fun hge => g2 (h2 hge), ?_⟩
    intro heq hnc
    exact g3 (h3 heq (hnc op (List.mem_cons_self _ _)))
      (fun o hm => hnc o (List.mem_cons_of_mem _ hm))

theorem fundingGe_nonneg (s : St) (hwf : WF s) (hge : FundingGe s) :
    ∀ kv ∈ s.projects, 0 ≤ kv.2.current_funding := by
  intro kv hm
  refine le_trans ?_ (hge kv hm)
  refine AList.sum_map_nonneg _ _ (fun kv2 hm2 => ?_)
  by_cases hq : (kv2.2.project_id = kv.1 ∧ kv2.2.status = PledgeStatus.captured)
  · rw [pledgeContrib, if_pos hq]
    exact hwf.2.2.1 kv2 hm2
  · rw [pledgeContrib, if_neg hq]

/-- Claim C1 (amended): over any sequence of core operations with
nonnegative initiation amounts, starting from a wellformed store where
every project's `current_funding` equals its captured-pledge sum, the
equality is preserved as long as no cancellation occurs; across arbitrary
sequences (cancellations included) `current_funding` still dominates the
captured sum and never becomes negative.  (Cancellation itself breaks the
equality: it marks CAPTURED pledges REFUNDED without decrementing
`current_funding` — see the counterexample.) -/
theorem C1_funding_invariant (s : St) (ops : List Op)
    (hwf : WF s) (heq : FundingEq s) (ha : ∀ op ∈ ops, op.amountOk) :
    ((∀ op ∈ ops, op.isCancel = false) → FundingEq (run s ops))
    ∧ FundingGe (run s ops)
    ∧ ∀ kv ∈ (run s ops).projects, 0 ≤ kv.2.current_funding := by
  have hge : FundingGe s := fun kv hm => le_of_eq (heq kv hm).symm
  obtain ⟨h1, h2, h3⟩ := run_preserves s ops hwf ha
  exact ⟨fun hnc => h3 heq hnc, h2 hge,
    fundingGe_nonneg _ h1 (h2 hge)⟩

/-- Witness for C1: the amended invariant evaluated on a concrete store
(one FUNDING project with goal 1000) and the concrete trace
initiate-then-capture of a 500-cent pledge. -/
theorem C1_funding_invariant_witness :
    WF ⟨[], [], [], [], [(1, ⟨1000, 0, ProjectStatus.funding, false, none,
        none, some 2, false, none, none⟩)], [], [], [], 10⟩
    ∧ FundingEq ⟨[], [], [], [], [(1, ⟨1000, 0, ProjectStatus.funding, false,
        none, none, some 2, false, none, none⟩)], [], [], [], 10⟩
    ∧ (∀ op ∈ [Op.initPledge 3 1 500 true "cs",
          Op.captureHook (some 10) (some "pi")], op.amountOk)
    ∧ (((∀ op ∈ [Op.initPledge 3 1 500 true "cs",
            Op.captureHook (some 10) (some "pi")], op.isCancel = false) →
          FundingEq (run ⟨[], [], [], [], [(1, ⟨1000, 0,
            ProjectStatus.funding, false, none, none, some 2, false, none,
            none⟩)], [], [], [], 10⟩
            [Op.initPledge 3 1 500 true "cs",
             Op.captureHook (some 10) (some "pi")]))
        ∧ FundingGe (run ⟨[], [], [], [], [(1, ⟨1000, 0,
            ProjectStatus.funding, false, none, none, some 2, false, none,
            none⟩)], [], [], [], 10⟩
            [Op.initPledge 3 1 500 true "cs",
             Op.captureHook (some 10) (some "pi")])
        ∧ ∀ kv ∈ (run ⟨[], [], [], [], [(1, ⟨1000, 0,
            ProjectStatus.funding, false, none, none, some 2, false, none,
            none⟩)], [], [], [], 10⟩
            [Op.initPledge 3 1 500 true "cs",
             Op.captureHook (some 10) (some "pi")]).projects,
            0 ≤ kv.2.current_funding) :=
  ⟨by decide, by decide, by decide,
   C1_funding_invariant _ _ (by decide) (by decide) (by decide)⟩

/-- Counterexample for C1 as stated: from a wellformed store satisfying
the invariant, initiate and capture a 500-cent pledge and then cancel the
project; the refund issued by cancellation leaves `current_funding` at
500 while no CAPTURED pledge remains, so the claimed equality fails. -/
theorem C1_counterexample :
    WF ⟨[], [], [], [], [(1, ⟨1000, 0, ProjectStatus.funding, false, none,
        none, some 2, false, none, none⟩)], [], [], [], 10⟩
    ∧ FundingEq ⟨[], [], [], [], [(1, ⟨1000, 0, ProjectStatus.funding, false,
        none, none, some 2, false, none, none⟩)], [], [], [], 10⟩
    ∧ (∀ op ∈ [Op.initPledge 3 1 500 true "cs",
          Op.captureHook (some 10) (some "pi"),
          Op.cancelProject 1 2 UserRole.teacher (fun _ => true)], op.amountOk)
    ∧ ¬ FundingEq (run ⟨[], [], [], [], [(1, ⟨1000, 0,
        ProjectStatus.funding, false, none, none, some 2, false, none,
        none⟩)], [], [], [], 10⟩
        [Op.initPledge 3 1 500 true "cs",
         Op.captureHook (some 10) (some "pi"),
         Op.cancelProject 1 2 UserRole.teacher (fun _ => true)]) := by
  refine ⟨by decide, by decide, by decide, ?_⟩
  intro heq
  have h := heq (1, ⟨1000, 500, ProjectStatus.cancelled, false, none, none,
    some 2, false, none, none⟩) (by decide)
  revert h
  decide


/-- Claim C2: delivering a checkout-completed webhook for a PENDING
pledge returns success, captures the pledge exactly once and adds its
amount to the project's funding exactly once; delivering the identical
event a second time returns success and leaves the store untouched; and
a delivery whose correlation id matches no pledge is a success-returning
no-op. -/
theorem C2_idempotent_capture (s : St) (cid : Nat) (intent : Option String)
    (pl : Pledge) (pr : Project)
    (hpl : AList.lookup s.pledges cid = some pl)
    (hst : pl.status = PledgeStatus.pending)
    (hpr : AList.lookup s.projects pl.project_id = some pr) :
    (webhook_checkout_completed s (some cid) intent).2 = WebhookResp.success
    ∧ AList.lookup (webhook_checkout_completed s (some cid) intent).1.pledges cid
        = some { pl with status := PledgeStatus.captured,
                         payment_intent_id := intent }
    ∧ (AList.lookup (webhook_checkout_completed s (some cid) intent).1.projects
          pl.project_id).map Project.current_funding
        = some (pr.current_funding + pl.amount)
    ∧ webhook_checkout_completed
          (webhook_checkout_completed s (some cid) intent).1 (some cid) intent
        = ((webhook_checkout_completed s (some cid) intent).1,
           WebhookResp.success)
    ∧ ∀ j, AList.lookup s.pledges j = none →
        webhook_checkout_completed s (some j) intent
          = (s, WebhookResp.success) := by
  refine ⟨?_, ?_, ?_, ?_, ?_⟩
  · simp only [webhook_checkout_completed, hpl, hpr]
    rw [if_neg (not_not_intro hst)]
  · simp only [webhook_checkout_completed, hpl, hpr]
    rw [if_neg (not_not_intro hst)]
    dsimp only
    rw [AList.lookup_upd_self, hpl]
    rfl
  · simp only [webhook_checkout_completed, hpl, hpr]
    rw [if_neg (not_not_intro hst)]
    dsimp only
    rw [AList.lookup_upd_self, hpr]
    rfl
  · have h2 : AList.lookup
        (webhook_checkout_completed s (some cid) intent).1.pledges cid
        = some { pl with status := PledgeStatus.captured,
                         payment_intent_id := intent } := by
      simp only [webhook_checkout_completed, hpl, hpr]
      rw [if_neg (not_not_intro hst)]
      dsimp only
      rw [AList.lookup_upd_self, hpl]
      rfl
    set s1 := (webhook_checkout_completed s (some cid) intent).1 with hs1
    rw [show webhook_checkout_completed s1 (some cid) intent
        = (s1, WebhookResp.success) from ?_]
    simp only [webhook_checkout_completed, h2]
    rw [if_pos (by simp)]
  · intro j hj
    simp only [webhook_checkout_completed, hj]



/-- Witness for C2: the idempotent-capture theorem evaluated on a store
holding one FUNDING project (goal 1000) and one PENDING pledge of 500. -/
theorem C2_idempotent_capture_witness :
    (webhook_checkout_completed
        ⟨[], [], [], [], [(1, ⟨1000, 0, ProjectStatus.funding, false, none,
          none, some 2, false, none, none⟩)],
         [(10, ⟨500, PledgeStatus.pending, none, none, 3, 1⟩)], [], [], 11⟩
        (some 10) (some "pi")).2 = WebhookResp.success
    ∧ AList.lookup (webhook_checkout_completed
        ⟨[], [], [], [], [(1, ⟨1000, 0, ProjectStatus.funding, false, none,
          none, some 2, false, none, none⟩)],
         [(10, ⟨500, PledgeStatus.pending, none, none, 3, 1⟩)], [], [], 11⟩
        (some 10) (some "pi")).1.pledges 10
        = some ⟨500, PledgeStatus.captured, none, some "pi", 3, 1⟩
    ∧ (AList.lookup (webhook_checkout_completed
        ⟨[], [], [], [], [(1, ⟨1000, 0, ProjectStatus.funding, false, none,
          none, some 2, false, none, none⟩)],
         [(10, ⟨500, PledgeStatus.pending, none, none, 3, 1⟩)], [], [], 11⟩
        (some 10) (some "pi")).1.projects 1).map Project.current_funding
        = some 500
    ∧ webhook_checkout_completed
        (webhook_checkout_completed
          ⟨[], [], [], [], [(1, ⟨1000, 0, ProjectStatus.funding, false, none,
            none, some 2, false, none, none⟩)],
           [(10, ⟨500, PledgeStatus.pending, none, none, 3, 1⟩)], [], [], 11⟩
          (some 10) (some "pi")).1 (some 10) (some "pi")
        = ((webhook_checkout_completed
          ⟨[], [], [], [], [(1, ⟨1000, 0, ProjectStatus.funding, false, none,
            none, some 2, false, none, none⟩)],
           [(10, ⟨500, PledgeStatus.pending, none, none, 3, 1⟩)], [], [], 11⟩
          (some 10) (some "pi")).1, WebhookResp.success) := by
  have h := C2_idempotent_capture
    ⟨[], [], [], [], [(1, ⟨1000, 0, ProjectStatus.funding, false, none,
      none, some 2, false, none, none⟩)],
     [(10, ⟨500, PledgeStatus.pending, none, none, 3, 1⟩)], [], [], 11⟩
    10 (some "pi") ⟨500, PledgeStatus.pending, none, none, 3, 1⟩
    ⟨1000, 0, ProjectStatus.funding, false, none, none, some 2, false, none,
      none⟩ (by decide) (by decide) (by decide)
  exact ⟨h.1, h.2.1, h.2.2.1, h.2.2.2.1⟩



theorem capStep_status_shape (s : St) (e : Option Nat × Option String)
    (pid : Nat) :
    statusAt (capStep s e) pid = statusAt s pid
    ∨ (statusAt s pid = some ProjectStatus.funding
        ∧ statusAt (capStep s e) pid = some ProjectStatus.successful) := by
  obtain ⟨cr, intent⟩ := e
  cases cr with
  | none => exact Or.inl rfl
  | some cid =>
    simp only [capStep, webhook_checkout_completed]
    cases hpl : AList.lookup s.pledges cid with
    | none => exact Or.inl rfl
    | some pl =>
      dsimp only
      by_cases hst : pl.status = PledgeStatus.pending
      · rw [if_neg (not_not_intro hst)]
        cases hpr : AList.lookup s.projects pl.project_id with
        | none => exact Or.inl rfl
        | some pr =>
          dsimp only
          by_cases hq : pid = pl.project_id
          · subst hq
            simp only [statusAt]
            rw [AList.lookup_upd_self, hpr]
            by_cases hfire : (decide (pr.funding_goal
                ≤ pr.current_funding + pl.amount)
                && (pr.status == ProjectStatus.funding)) = true
            · right
              have hfund : pr.status = ProjectStatus.funding := by
                have h2 := (Bool.and_eq_true _ _).mp hfire
                simpa using h2.2
              constructor
              · simp [hfund]
              · simp only [Option.map_some']
                rw [if_pos hfire]
            · left
              simp only [Option.map_some']
              rw [if_neg hfire]
          · left
            simp only [statusAt]
            rw [AList.lookup_upd_ne _ _ _ _ hq]
      · rw [if_pos hst]
        exact Or.inl rfl

theorem statusAt_successful_absorbing (s : St)
    (e : Option Nat × Option String) (pid : Nat)
    (hs : statusAt s pid = some ProjectStatus.successful) :
    statusAt (capStep s e) pid = some ProjectStatus.successful := by
  rcases capStep_status_shape s e pid with h | ⟨h1, h2⟩
  · rw [h, hs]
  · rw [hs] at h1
    simp at h1

theorem fireCount_eq_zero_of_successful (pid : Nat)
    (evs : List (Option Nat × Option String)) :
    ∀ s : St, statusAt s pid = some ProjectStatus.successful →
      fireCount s pid evs = 0 := by
  induction evs with
  | nil => intro s _; rfl
  | cons e evs ih =>
    intro s hs
    have hf : fireAt s e pid = false := by
      simp [fireAt, hs]
    simp only [fireCount, hf, Bool.false_eq_true, if_false]
    rw [ih (capStep s e) (statusAt_successful_absorbing s e pid hs)]

theorem fireCount_le_one (pid : Nat)
    (evs : List (Option Nat × Option String)) :
    ∀ s : St, fireCount s pid evs ≤ 1 := by
  induction evs with
  | nil => intro s; exact Nat.zero_le 1
  | cons e evs ih =>
    intro s
    by_cases hf : fireAt s e pid = true
    · have h2 : statusAt (capStep s e) pid = some ProjectStatus.successful := by
        have h3 := hf
        simp only [fireAt, Bool.and_eq_true, beq_iff_eq] at h3
        exact h3.2
      simp only [fireCount, hf, if_true]
      rw [fireCount_eq_zero_of_successful pid evs (capStep s e) h2]
    · simp only [fireCount, if_neg hf]
      simpa using ih (capStep s e)



theorem fireAt_formula (s : St) (cid : Nat) (intent : Option String)
    (pid : Nat) (pl : Pledge) (pr : Project)
    (hpl : AList.lookup s.pledges cid = some pl)
    (hst : pl.status = PledgeStatus.pending)
    (hpr : AList.lookup s.projects pl.project_id = some pr) :
    fireAt s (some cid, intent) pid
      = ((decide (pr.funding_goal ≤ pr.current_funding + pl.amount)
          && (pr.status == ProjectStatus.funding))
        && (pl.project_id == pid)) := by
  simp only [fireAt, capStep, webhook_checkout_completed, hpl]
  rw [if_neg (not_not_intro hst), hpr]
  dsimp only
  by_cases hq : pl.project_id = pid
  · subst hq
    simp only [statusAt]
    rw [AList.lookup_upd_self, hpr]
    simp only [Option.map_some', beq_self_eq_true, Bool.and_true]
    by_cases hfire : (decide (pr.funding_goal
        ≤ pr.current_funding + pl.amount)
        && (pr.status == ProjectStatus.funding)) = true
    · rw [hfire]
      have hfund : pr.status = ProjectStatus.funding := by
        have h2 := (Bool.and_eq_true _ _).mp hfire
        simpa using h2.2
      simp [hfund]
    · have hfire2 : (decide (pr.funding_goal
          ≤ pr.current_funding + pl.amount)
          && (pr.status == ProjectStatus.funding)) = false :=
        Bool.eq_false_iff.mpr hfire
      rw [hfire2]
      by_cases hq2 : pr.status = ProjectStatus.successful <;>
        simp [hq2]
  · have hbq : (pl.project_id == pid) = false := by
      simpa using hq
    rw [hbq, Bool.and_false]
    simp only [statusAt]
    rw [AList.lookup_upd_ne _ _ _ _ (fun h => hq h.symm)]
    by_cases hq2 : (AList.lookup s.projects pid).map Project.status
        = some ProjectStatus.successful <;> simp [hq2]

theorem goalNotif_capStep (s : St) (e : Option Nat × Option String)
    (pid : Nat) :
    goalNotifCount (capStep s e) pid
      = goalNotifCount s pid + (if fireAt s e pid then 1 else 0) := by
  have hfix : ∀ (h : capStep s e = s), fireAt s e pid = false := by
    intro h
    simp only [fireAt, h]
    by_cases hq : statusAt s pid = some ProjectStatus.successful <;> simp [hq]
  obtain ⟨cr, intent⟩ := e
  cases cr with
  | none =>
    rw [hfix rfl]
    rfl
  | some cid =>
    by_cases hself : capStep s (some cid, intent) = s
    · rw [hfix hself, hself]
      rfl
    · simp only [capStep, webhook_checkout_completed] at hself ⊢
      cases hpl : AList.lookup s.pledges cid with
      | none =>
        rw [hpl] at hself
        exact absurd rfl hself
      | some pl =>
        rw [hpl] at hself
        dsimp only at hself ⊢
        by_cases hst : pl.status = PledgeStatus.pending
        · rw [if_neg (not_not_intro hst)] at hself ⊢
          cases hpr : AList.lookup s.projects pl.project_id with
          | none =>
            have hfa : fireAt s (some cid, intent) pid = false := by
              simp only [fireAt, capStep, webhook_checkout_completed, hpl]
              rw [if_neg (not_not_intro hst), hpr]
              simp only [statusAt]
              by_cases hq : (AList.lookup s.projects pid).map Project.status
                  = some ProjectStatus.successful <;> simp [hq]
            rw [hfa]
            rfl
          | some pr =>
            have hfa := fireAt_formula s cid intent pid pl pr hpl hst hpr
            rw [hfa]
            simp only [goalNotifCount, List.filter_append, List.length_append]
            by_cases hq : pl.project_id = pid
            · subst hq
              by_cases hfire : (decide (pr.funding_goal
                  ≤ pr.current_funding + pl.amount)
                  && (pr.status == ProjectStatus.funding)) = true
              · rw [hfire]
                simp
              · rw [Bool.eq_false_iff.mpr hfire]
                simp [Bool.eq_false_iff.mpr hfire]
            · have hbq : (pl.project_id == pid) = false := by
                simpa using hq
              rw [hbq, Bool.and_false]
              by_cases hfire : (decide (pr.funding_goal
                  ≤ pr.current_funding + pl.amount)
                  && (pr.status == ProjectStatus.funding)) = true
              · rw [hfire]
                simp [hbq]
              · rw [Bool.eq_false_iff.mpr hfire]
                simp [hbq, Bool.eq_false_iff.mpr hfire]
        · rw [if_pos hst] at hself
          exact absurd rfl hself


theorem fireAt_false_of_fixed (s : St) (e : Option Nat × Option String)
    (pid : Nat) (h : capStep s e = s) : fireAt s e pid = false := by
  simp only [fireAt, h]
  by_cases hq : statusAt s pid = some ProjectStatus.successful <;> simp [hq]

theorem fireAt_false_of_same (s : St) (e : Option Nat × Option String)
    (pid : Nat) (h : statusAt (capStep s e) pid = statusAt s pid) :
    fireAt s e pid = false := by
  simp only [fireAt, h]
  by_cases hq : statusAt s pid = some ProjectStatus.successful <;> simp [hq]

theorem goalNotif_capRun (pid : Nat)
    (evs : List (Option Nat × Option String)) :
    ∀ s : St, goalNotifCount (capRun s evs) pid
      = goalNotifCount s pid + fireCount s pid evs := by
  induction evs with
  | nil => intro s; rfl
  | cons e evs ih =>
    intro s
    show goalNotifCount (capRun (capStep s e) evs) pid = _
    rw [ih (capStep s e), goalNotif_capStep s e pid]
    simp only [fireCount]
    rw [Nat.add_assoc]

theorem fireAt_iff (s : St) (e : Option Nat × Option String) (pid : Nat) :
    fireAt s e pid = true
    ↔ ∃ cid pl pr, e.1 = some cid
        ∧ AList.lookup s.pledges cid = some pl
        ∧ pl.status = PledgeStatus.pending
        ∧ pl.project_id = pid
        ∧ AList.lookup s.projects pid = some pr
        ∧ pr.status = ProjectStatus.funding
        ∧ pr.funding_goal ≤ pr.current_funding + pl.amount := by
  obtain ⟨cr, intent⟩ := e
  constructor
  · intro hf
    cases cr with
    | none =>
      rw [fireAt_false_of_fixed s (none, intent) pid rfl] at hf
      cases hf
    | some cid =>
      cases hpl : AList.lookup s.pledges cid with
      | none =>
        have hfx : capStep s (some cid, intent) = s := by
          simp only [capStep, webhook_checkout_completed, hpl]
        rw [fireAt_false_of_fixed s _ pid hfx] at hf
        cases hf
      | some pl =>
        by_cases hst : pl.status = PledgeStatus.pending
        · cases hpr : AList.lookup s.projects pl.project_id with
          | none =>
            have hsame : statusAt (capStep s (some cid, intent)) pid
                = statusAt s pid := by
              simp only [capStep, webhook_checkout_completed, hpl]
              rw [if_neg (not_not_intro hst), hpr]
              rfl
            rw [fireAt_false_of_same s _ pid hsame] at hf
            cases hf
          | some pr =>
            rw [fireAt_formula s cid intent pid pl pr hpl hst hpr] at hf
            simp only [Bool.and_eq_true, beq_iff_eq, decide_eq_true_eq] at hf
            obtain ⟨⟨hle, hfund⟩, hqq⟩ := hf
            refine ⟨cid, pl, pr, rfl, hpl, hst, hqq, ?_, hfund, hle⟩
            rw [← hqq]
            exact hpr
        · have hfx : capStep s (some cid, intent) = s := by
            simp only [capStep, webhook_checkout_completed, hpl]
            rw [if_pos hst]
          rw [fireAt_false_of_fixed s _ pid hfx] at hf
          cases hf
  · rintro ⟨cid, pl, pr, he1, hpl, hst, hqpid, hpr2, hfund, hle⟩
    cases he1
    have hpr : AList.lookup s.projects pl.project_id = some pr := by
      rw [hqpid]
      exact hpr2
    rw [fireAt_formula s cid intent pid pl pr hpl hst hpr]
    simp [hle, hfund, hqpid]

/-- Claim C3: across any sequence of checkout-completed webhook
deliveries, the transition of a project to SUCCESSFUL fires at most once;
the number of fully-funded notifications for the project grows by exactly
the number of fires (hence by at most one); and a delivery fires the
transition precisely when it captures a PENDING pledge of the project
while the project is in FUNDING and the incremented `current_funding`
reaches `funding_goal` — so a later pledge re-crossing the threshold
cannot re-fire the transition or emit a second notification. -/
theorem C3_success_transition_once (s : St) (pid : Nat)
    (evs : List (Option Nat × Option String)) :
    fireCount s pid evs ≤ 1
    ∧ goalNotifCount (capRun s evs) pid
        = goalNotifCount s pid + fireCount s pid evs
    ∧ ∀ e : Option Nat × Option String, fireAt s e pid = true
        ↔ ∃ cid pl pr, e.1 = some cid
            ∧ AList.lookup s.pledges cid = some pl
            ∧ pl.status = PledgeStatus.pending
            ∧ pl.project_id = pid
            ∧ AList.lookup s.projects pid = some pr
            ∧ pr.status = ProjectStatus.funding
            ∧ pr.funding_goal ≤ pr.current_funding + pl.amount :=
  ⟨fireCount_le_one pid evs s, goalNotif_capRun pid evs s,
   fun e => fireAt_iff s e pid⟩



/-- Claim C4: evaluation of `create_pledge_checkout_session` at a store
with one FUNDING project when the gateway call fails.  The handler
commits the PENDING pledge before calling the gateway, and the
`session.rollback()` in its except-branch cannot undo that commit, so the
failed call returns the Stripe error *and* leaves the orphan PENDING
pledge (id 5) in the store — contradicting the claim that a failed
gateway call never leaves an orphan PENDING pledge. -/
theorem C4_failed_checkout_leaves_orphan_pledge :
    (create_pledge_checkout_session
        ⟨[], [], [], [], [(1, ⟨1000, 0, ProjectStatus.funding, false, none,
          none, some 2, false, none, none⟩)], [], [], [], 5⟩
        9 1 500 false "cs").2 = Except.error ApiError.stripeError
    ∧ AList.lookup (create_pledge_checkout_session
        ⟨[], [], [], [], [(1, ⟨1000, 0, ProjectStatus.funding, false, none,
          none, some 2, false, none, none⟩)], [], [], [], 5⟩
        9 1 500 false "cs").1.pledges 5
        = some ⟨500, PledgeStatus.pending, none, none, 9, 1⟩ :=
  ⟨rfl, by decide⟩

/-- Counterexample to claim C8 as stated: a student viewing their own
CANCELLED request.  The claim's predicate makes it visible (owner,
regardless of status), but the handler's blanket
`Request.status != CANCELLED` filter hides it. -/
theorem C8_counterexample :
    list_requests_visible [] 1 UserRole.student 5
        ⟨RequestStatus.cancelled, 1, none, false⟩ = false
    ∧ claimC8_visible [] 1 5 ⟨RequestStatus.cancelled, 1, none, false⟩ :=
  ⟨by decide, Or.inl rfl, fun b hb => absurd hb (List.not_mem_nil b)⟩

/-- Claim C8 (amended): the WHERE clause of `list_requests` returns a
request iff its status is not CANCELLED, and the viewer owns it, or it is
public with status OPEN/NEGOTIATING, or the viewer is a TEACHER it is
targeted at with status OPEN/NEGOTIATING, and — for TEACHER viewers
only — it is not blacklisted for the viewer. -/
theorem C8_visibility_amended (blacklist : List BlacklistEntry)
    (viewerId : Nat) (viewerRole : UserRole) (requestId : Nat) (r : Request) :
    list_requests_visible blacklist viewerId viewerRole requestId r = true
    ↔ claimC8_amended_visible blacklist viewerId viewerRole requestId r := by
  unfold list_requests_visible claimC8_amended_visible visibleStatuses
  cases viewerRole <;>
    simp [List.any_eq_true, not_or, and_assoc, bne_iff_ne]



/-- Claim C5: `confirm_completion` issues a payout at most once.  A
successful call requires the project to be PENDING_CONFIRMATION, the
caller to hold a CAPTURED pledge on it, and `stripe_transfer_id` to be
unset; when a payout reference is already recorded the call fails with
the already-paid-out precondition error, and when the teacher has no
connected payout account it fails with the no-payout-account
precondition error — in both failure cases without mutating the store. -/
theorem C5_payout_at_most_once (s : St) (pid cid : Nat) (tok : Bool)
    (tid : String) (pr : Project)
    (hpr : AList.lookup s.projects pid = some pr) :
    ((confirm_completion s pid cid tok tid).2 = Except.ok () →
      pr.status = ProjectStatus.pending_confirmation
      ∧ (s.pledges.find? (fun kv => kv.2.project_id == pid
          && kv.2.user_id == cid
          && kv.2.status == PledgeStatus.captured)).isNone = false
      ∧ truthyStr pr.stripe_transfer_id = false)
    ∧ (pr.status = ProjectStatus.pending_confirmation →
        (s.pledges.find? (fun kv => kv.2.project_id == pid
          && kv.2.user_id == cid
          && kv.2.status == PledgeStatus.captured)).isNone = false →
        truthyStr pr.stripe_transfer_id = true →
        confirm_completion s pid cid tok tid
          = (s, Except.error ApiError.alreadyPaidOut))
    ∧ (pr.status = ProjectStatus.pending_confirmation →
        (s.pledges.find? (fun kv => kv.2.project_id == pid
          && kv.2.user_id == cid
          && kv.2.status == PledgeStatus.captured)).isNone = false →
        truthyStr pr.stripe_transfer_id = false →
        (teacher_of s pr = none
          ∨ ∃ t, teacher_of s pr = some t
              ∧ truthyStr t.stripe_account_id = false) →
        confirm_completion s pid cid tok tid
          = (s, Except.error ApiError.noPayoutAccount)) := by
  refine ⟨?_, ?_, ?_⟩
  · intro hok
    simp only [confirm_completion, hpr] at hok
    by_cases h1 : pr.status = ProjectStatus.pending_confirmation
    case neg =>
      rw [if_pos h1] at hok
      cases hok
    case pos =>
      rw [if_neg (not_not_intro h1)] at hok
      by_cases h2 : (s.pledges.find? (fun kv => kv.2.project_id == pid
          && kv.2.user_id == cid
          && kv.2.status == PledgeStatus.captured)).isNone = true
      · rw [if_pos h2] at hok
        cases hok
      · rw [if_neg h2] at hok
        by_cases h3 : truthyStr pr.stripe_transfer_id = true
        · rw [if_pos h3] at hok
          cases hok
        · exact ⟨h1, Bool.eq_false_iff.mpr h2, Bool.eq_false_iff.mpr h3⟩
  · intro h1 h2 h3
    simp only [confirm_completion, hpr]
    rw [if_neg (not_not_intro h1), if_neg (by rw [h2]; simp), if_pos h3]
  · intro h1 h2 h3 h4
    simp only [confirm_completion, hpr]
    rw [if_neg (not_not_intro h1), if_neg (by rw [h2]; simp),
      if_neg (by rw [h3]; simp)]
    rcases h4 with h4 | ⟨t, ht, hacc⟩
    · rw [h4]
    · rw [ht]
      dsimp only
      rw [if_pos (by rw [hacc]; simp)]

/-- Witness for C5: the already-paid-out branch evaluated concretely — a
PENDING_CONFIRMATION project whose `stripe_transfer_id` is already set,
with a CAPTURED backer, rejects a second confirmation. -/
theorem C5_payout_at_most_once_witness :
    confirm_completion
        ⟨[(2, ⟨UserRole.teacher, some "acct"⟩)], [], [], [],
         [(1, ⟨1000, 1000, ProjectStatus.pending_confirmation, false,
            some "tr_0", none, some 2, false, none, none⟩)],
         [(10, ⟨1000, PledgeStatus.captured, none, some "pi", 3, 1⟩)],
         [], [], 11⟩ 1 3 true "tr_1"
      = (⟨[(2, ⟨UserRole.teacher, some "acct"⟩)], [], [], [],
         [(1, ⟨1000, 1000, ProjectStatus.pending_confirmation, false,
            some "tr_0", none, some 2, false, none, none⟩)],
         [(10, ⟨1000, PledgeStatus.captured, none, some "pi", 3, 1⟩)],
         [], [], 11⟩, Except.error ApiError.alreadyPaidOut) :=
  (C5_payout_at_most_once _ 1 3 true "tr_1"
      ⟨1000, 1000, ProjectStatus.pending_confirmation, false, some "tr_0",
        none, some 2, false, none, none⟩ (by decide)).2.1
    (by decide) (by decide) (by decide)

/-- Claim C10: in `confirm_completion`, when the computed payout amount
(`current_funding` minus the truncated platform fee) is zero or negative
and every other precondition passes, no transfer is requested: the call
succeeds, the project still transitions to COMPLETED, and
`stripe_transfer_id` stays unset — for either outcome of the (never
invoked) gateway transfer. -/
theorem C10_nonpositive_payout_completes (s : St) (pid cid : Nat)
    (tok : Bool) (tid : String) (pr : Project) (teacher : User)
    (hpr : AList.lookup s.projects pid = some pr)
    (hstatus : pr.status = ProjectStatus.pending_confirmation)
    (hfind : (s.pledges.find? (fun kv => kv.2.project_id == pid
        && kv.2.user_id == cid
        && kv.2.status == PledgeStatus.captured)).isNone = false)
    (htr : pr.stripe_transfer_id = none)
    (hteach : teacher_of s pr = some teacher)
    (hacc : truthyStr teacher.stripe_account_id = true)
    (hpay : pr.current_funding - platform_fee pr.current_funding ≤ 0) :
    (confirm_completion s pid cid tok tid).2 = Except.ok ()
    ∧ AList.lookup (confirm_completion s pid cid tok tid).1.projects pid
        = some { pr with status := ProjectStatus.completed }
    ∧ (AList.lookup (confirm_completion s pid cid tok tid).1.projects
        pid).map Project.stripe_transfer_id = some none := by
  have hred : confirm_completion s pid cid tok tid
      = ({ s with
            projects :=
              AList.upd s.projects pid
                (fun q => { q with status := ProjectStatus.completed }),
            notifications :=
              s.notifications
                ++ [⟨pr.teacher_id, NotifKind.fundsReleased, none⟩] },
          Except.ok ()) := by
    simp only [confirm_completion, hpr]
    rw [if_neg (not_not_intro hstatus), if_neg (by rw [hfind]; simp),
      if_neg (by rw [htr]; simp [truthyStr]), hteach]
    dsimp only
    rw [if_neg (by rw [hacc]; simp), if_neg (not_lt.mpr hpay)]
  refine ⟨by rw [hred], ?_, ?_⟩
  · rw [hred]
    dsimp only
    rw [AList.lookup_upd_self, hpr]
    rfl
  · rw [hred]
    dsimp only
    rw [AList.lookup_upd_self, hpr]
    simp only [Option.map_map, Option.map_some']
    rw [show Project.stripe_transfer_id
        { pr with status := ProjectStatus.completed }
        = pr.stripe_transfer_id from rfl, htr]

/-- Witness for C10: a PENDING_CONFIRMATION project with
`current_funding = 0` (payout 0) completes without a transfer. -/
theorem C10_nonpositive_payout_completes_witness :
    (confirm_completion
        ⟨[(2, ⟨UserRole.teacher, some "acct"⟩)], [], [], [],
         [(1, ⟨1000, 0, ProjectStatus.pending_confirmation, false, none,
            none, some 2, false, none, none⟩)],
         [(10, ⟨0, PledgeStatus.captured, none, some "pi", 3, 1⟩)],
         [], [], 11⟩ 1 3 false "tr").2 = Except.ok ()
    ∧ AList.lookup (confirm_completion
        ⟨[(2, ⟨UserRole.teacher, some "acct"⟩)], [], [], [],
         [(1, ⟨1000, 0, ProjectStatus.pending_confirmation, false, none,
            none, some 2, false, none, none⟩)],
         [(10, ⟨0, PledgeStatus.captured, none, some "pi", 3, 1⟩)],
         [], [], 11⟩ 1 3 false "tr").1.projects 1
        = some ⟨1000, 0, ProjectStatus.completed, false, none, none, some 2,
            false, none, none⟩ := by
  have h := C10_nonpositive_payout_completes
    ⟨[(2, ⟨UserRole.teacher, some "acct"⟩)], [], [], [],
     [(1, ⟨1000, 0, ProjectStatus.pending_confirmation, false, none,
        none, some 2, false, none, none⟩)],
     [(10, ⟨0, PledgeStatus.captured, none, some "pi", 3, 1⟩)],
     [], [], 11⟩ 1 3 false "tr"
    ⟨1000, 0, ProjectStatus.pending_confirmation, false, none, none, some 2,
      false, none, none⟩ ⟨UserRole.teacher, some "acct"⟩
    (by decide) (by decide) (by decide) (by decide) (by decide) (by decide)
    (by decide)
  exact ⟨h.1, h.2.1⟩



/-- Claim C6: when the conversation's student accepts a PENDING offer
message, the handler atomically sets the offer ACCEPTED, sets the request
ACCEPTED, creates a new FUNDING project from the offer fields (goal =
offer price, `origin_request_id` set, the conversation's teacher as
owner), closes every conversation of that request (and only those), and
writes no `RequestBlacklist` row. -/
theorem C6_accept_offer_effects (s : St) (mid callerId : Nat) (m : Message)
    (conv : Conversation) (req : Request) (price : Int) (isSeries : Bool)
    (hm : AList.lookup s.messages mid = some m)
    (htype : m.message_type = MessageType.offer)
    (hconv : AList.lookup s.conversations m.conversation_id = some conv)
    (hcaller : callerId = conv.student_id)
    (hpend : m.offer_status = some OfferStatus.pending)
    (hprice : m.offer_price = some price)
    (hser : m.offer_is_series = some isSeries)
    (hreq : AList.lookup s.requests conv.request_id = some req)
    (hfresh : AList.lookup s.projects s.nextId = none) :
    (accept_offer s mid callerId).2 = Except.ok s.nextId
    ∧ AList.lookup (accept_offer s mid callerId).1.messages mid
        = some { m with offer_status := some OfferStatus.accepted }
    ∧ AList.lookup (accept_offer s mid callerId).1.requests conv.request_id
        = some { req with status := RequestStatus.accepted }
    ∧ AList.lookup (accept_offer s mid callerId).1.projects s.nextId
        = some ⟨price, 0, ProjectStatus.funding, false, none,
            some conv.request_id, some conv.teacher_id, isSeries,
            m.offer_num_videos, m.offer_price_per_video⟩
    ∧ (∀ k c, AList.lookup s.conversations k = some c →
        AList.lookup (accept_offer s mid callerId).1.conversations k
          = some (if c.request_id == conv.request_id
              then { c with status := ConversationStatus.closed } else c))
    ∧ (accept_offer s mid callerId).1.blacklist = s.blacklist := by
  have hred : accept_offer s mid callerId
      = ({ s with
            messages :=
              AList.upd s.messages mid
                (fun mm => { mm with
                  offer_status := some OfferStatus.accepted }),
            requests :=
              AList.upd s.requests conv.request_id
                (fun r => { r with status := RequestStatus.accepted }),
            projects :=
              s.projects ++ [(s.nextId, ⟨price, 0, ProjectStatus.funding,
                false, none, some conv.request_id, some conv.teacher_id,
                isSeries, m.offer_num_videos, m.offer_price_per_video⟩)],
            conversations :=
              updKV s.conversations
                (fun kv => kv.2.request_id == conv.request_id)
                (fun c => { c with status := ConversationStatus.closed }),
            nextId := s.nextId + 1 },
          Except.ok s.nextId) := by
    simp only [accept_offer, hm, hconv]
    rw [if_neg (not_not_intro htype), if_neg (not_not_intro hcaller),
      if_neg (not_not_intro hpend), hprice, hser, hreq]
  refine ⟨by rw [hred], ?_, ?_, ?_, ?_, by rw [hred]⟩
  · rw [hred]
    dsimp only
    rw [AList.lookup_upd_self, hm]
    rfl
  · rw [hred]
    dsimp only
    rw [AList.lookup_upd_self, hreq]
    rfl
  · rw [hred]
    dsimp only
    rw [AList.lookup_append_right _ _ _ hfresh]
    simp [AList.lookup]
  · intro k c hkc
    rw [hred]
    dsimp only
    rw [AList.lookup_updKV, hkc]
    rfl

/-- Witness for C6: a request with two open conversations from two
teachers; the student accepts a PENDING offer (price 1200) from the first
teacher; both conversations close, the project is created in FUNDING with
the offer price as goal and the request id as origin, and the blacklist
stays empty. -/
theorem C6_accept_offer_effects_witness :
    (accept_offer
        ⟨[], [(1, ⟨RequestStatus.negotiating, 3, none, false⟩)],
         [(2, ⟨1, 4, 3, ConversationStatus.open_⟩),
          (5, ⟨1, 6, 3, ConversationStatus.open_⟩)],
         [(7, ⟨2, MessageType.offer, some OfferStatus.pending, some 1200,
            some false, none, none⟩)],
         [], [], [], [], 8⟩ 7 3).2 = Except.ok 8
    ∧ AList.lookup (accept_offer
        ⟨[], [(1, ⟨RequestStatus.negotiating, 3, none, false⟩)],
         [(2, ⟨1, 4, 3, ConversationStatus.open_⟩),
          (5, ⟨1, 6, 3, ConversationStatus.open_⟩)],
         [(7, ⟨2, MessageType.offer, some OfferStatus.pending, some 1200,
            some false, none, none⟩)],
         [], [], [], [], 8⟩ 7 3).1.projects 8
        = some ⟨1200, 0, ProjectStatus.funding, false, none, some 1, some 4,
            false, none, none⟩
    ∧ AList.lookup (accept_offer
        ⟨[], [(1, ⟨RequestStatus.negotiating, 3, none, false⟩)],
         [(2, ⟨1, 4, 3, ConversationStatus.open_⟩),
          (5, ⟨1, 6, 3, ConversationStatus.open_⟩)],
         [(7, ⟨2, MessageType.offer, some OfferStatus.pending, some 1200,
            some false, none, none⟩)],
         [], [], [], [], 8⟩ 7 3).1.conversations 2
        = some ⟨1, 4, 3, ConversationStatus.closed⟩
    ∧ AList.lookup (accept_offer
        ⟨[], [(1, ⟨RequestStatus.negotiating, 3, none, false⟩)],
         [(2, ⟨1, 4, 3, ConversationStatus.open_⟩),
          (5, ⟨1, 6, 3, ConversationStatus.open_⟩)],
         [(7, ⟨2, MessageType.offer, some OfferStatus.pending, some 1200,
            some false, none, none⟩)],
         [], [], [], [], 8⟩ 7 3).1.conversations 5
        = some ⟨1, 6, 3, ConversationStatus.closed⟩
    ∧ (accept_offer
        ⟨[], [(1, ⟨RequestStatus.negotiating, 3, none, false⟩)],
         [(2, ⟨1, 4, 3, ConversationStatus.open_⟩),
          (5, ⟨1, 6, 3, ConversationStatus.open_⟩)],
         [(7, ⟨2, MessageType.offer, some OfferStatus.pending, some 1200,
            some false, none, none⟩)],
         [], [], [], [], 8⟩ 7 3).1.blacklist = [] := by
  have h := C6_accept_offer_effects
    ⟨[], [(1, ⟨RequestStatus.negotiating, 3, none, false⟩)],
     [(2, ⟨1, 4, 3, ConversationStatus.open_⟩),
      (5, ⟨1, 6, 3, ConversationStatus.open_⟩)],
     [(7, ⟨2, MessageType.offer, some OfferStatus.pending, some 1200,
        some false, none, none⟩)],
     [], [], [], [], 8⟩ 7 3
    ⟨2, MessageType.offer, some OfferStatus.pending, some 1200, some false,
      none, none⟩
    ⟨1, 4, 3, ConversationStatus.open_⟩
    ⟨RequestStatus.negotiating, 3, none, false⟩ 1200 false
    (by decide) (by decide) (by decide) (by decide) (by decide) (by decide)
    (by decide) (by decide) (by decide)
  refine ⟨h.1, h.2.2.2.1, ?_, ?_, h.2.2.2.2.2⟩
  · have h2 := h.2.2.2.2.1 2 ⟨1, 4, 3, ConversationStatus.open_⟩ (by decide)
    simpa using h2
  · have h5 := h.2.2.2.2.1 5 ⟨1, 6, 3, ConversationStatus.open_⟩ (by decide)
    simpa using h5



/-- Claim C9: cancelling a non-COMPLETED project by its owner (or an
admin) succeeds; every CAPTURED pledge of the project whose gateway
refund succeeds becomes REFUNDED while a failed refund leaves its pledge
CAPTURED and the rest are untouched; the project becomes CANCELLED; the
originating request is reopened to OPEN with its target cleared and
privacy reset; and a blacklist row for the project's teacher on that
request is appended. -/
theorem C9_cancel_project_effects (s : St) (pid callerId : Nat)
    (role : UserRole) (refundOk : Nat → Bool) (pr : Project) (req : Request)
    (rid tid : Nat)
    (hpr : AList.lookup s.projects pid = some pr)
    (hauth : pr.teacher_id = some callerId ∨ role = UserRole.admin)
    (hst : pr.status ≠ ProjectStatus.completed)
    (horig : pr.origin_request_id = some rid)
    (hrid : rid ≠ 0)
    (hreq : AList.lookup s.requests rid = some req)
    (hteach : pr.teacher_id = some tid)
    (htid : tid ≠ 0) :
    (cancel_project s pid callerId role refundOk).2 = Except.ok ()
    ∧ (∀ k pl, AList.lookup s.pledges k = some pl →
        AList.lookup
            (cancel_project s pid callerId role refundOk).1.pledges k
          = some (if pl.project_id == pid
                && (pl.status == PledgeStatus.captured) && refundOk k
              then { pl with status := PledgeStatus.refunded } else pl))
    ∧ AList.lookup (cancel_project s pid callerId role refundOk).1.projects
        pid = some { pr with status := ProjectStatus.cancelled }
    ∧ AList.lookup (cancel_project s pid callerId role refundOk).1.requests
        rid = some { req with status := RequestStatus.open_, target_teacher_id := none, is_private := false }
    ∧ (cancel_project s pid callerId role refundOk).1.blacklist
        = s.blacklist ++ [⟨rid, tid⟩] := by
  have hnauth : ¬(pr.teacher_id ≠ some callerId ∧ role ≠ UserRole.admin) :=
    fun h => hauth.elim h.1 h.2
  have hred : cancel_project s pid callerId role refundOk
      = ({ s with
            pledges :=
              updKV s.pledges (fun kv => kv.2.project_id == pid && kv.2.status == PledgeStatus.captured && refundOk kv.1) (fun p => { p with status := PledgeStatus.refunded }),
            projects :=
              AList.upd s.projects pid (fun q => { q with status := ProjectStatus.cancelled }),
            requests :=
              AList.upd s.requests rid (fun r => { r with status := RequestStatus.open_, target_teacher_id := none, is_private := false }),
            notifications :=
              (s.notifications ++ s.pledges.filterMap (fun kv => if kv.2.project_id == pid && kv.2.status == PledgeStatus.captured && refundOk kv.1 then some ⟨some kv.2.user_id, NotifKind.refundedByCancel, none⟩ else none)) ++ [⟨some req.user_id, NotifKind.requestReopened, none⟩],
            blacklist := s.blacklist ++ [⟨rid, tid⟩] },
          Except.ok ()) := by
    simp only [cancel_project, hpr]
    rw [if_neg hnauth, if_neg hst]
    simp only [cancel_project_logic, horig]
    rw [if_neg (by simp [hrid])]
    rw [show AList.lookup s.requests rid = some req from hreq]
    dsimp only
    rw [hteach]
    dsimp only
    rw [if_neg (by simp [htid])]
  refine ⟨by rw [hred], ?_, ?_, ?_, by rw [hred]⟩
  · intro k pl hkpl
    rw [hred]
    dsimp only
    rw [AList.lookup_updKV, hkpl]
    rfl
  · rw [hred]
    dsimp only
    rw [AList.lookup_upd_self, hpr]
    rfl
  · rw [hred]
    dsimp only
    rw [AList.lookup_upd_self, hreq]
    rfl

/-- Witness for C9: a FUNDING project born from request 1, with one
CAPTURED pledge whose refund succeeds and one CAPTURED pledge whose
refund fails, cancelled by its teacher: the first pledge is REFUNDED, the
second stays CAPTURED, the project is CANCELLED, request 1 is reopened
and the teacher is blacklisted on it. -/
theorem C9_cancel_project_effects_witness :
    (cancel_project
        ⟨[], [(1, ⟨RequestStatus.accepted, 3, some 2, true⟩)], [], [],
         [(4, ⟨1200, 1200, ProjectStatus.funding, false, none, some 1,
            some 2, false, none, none⟩)],
         [(10, ⟨700, PledgeStatus.captured, none, some "piA", 5, 4⟩),
          (11, ⟨500, PledgeStatus.captured, none, some "piB", 6, 4⟩)],
         [], [], 12⟩ 4 2 UserRole.teacher (fun k => k == 10)).2
      = Except.ok ()
    ∧ AList.lookup (cancel_project
        ⟨[], [(1, ⟨RequestStatus.accepted, 3, some 2, true⟩)], [], [],
         [(4, ⟨1200, 1200, ProjectStatus.funding, false, none, some 1,
            some 2, false, none, none⟩)],
         [(10, ⟨700, PledgeStatus.captured, none, some "piA", 5, 4⟩),
          (11, ⟨500, PledgeStatus.captured, none, some "piB", 6, 4⟩)],
         [], [], 12⟩ 4 2 UserRole.teacher (fun k => k == 10)).1.pledges 10
      = some ⟨700, PledgeStatus.refunded, none, some "piA", 5, 4⟩
    ∧ AList.lookup (cancel_project
        ⟨[], [(1, ⟨RequestStatus.accepted, 3, some 2, true⟩)], [], [],
         [(4, ⟨1200, 1200, ProjectStatus.funding, false, none, some 1,
            some 2, false, none, none⟩)],
         [(10, ⟨700, PledgeStatus.captured, none, some "piA", 5, 4⟩),
          (11, ⟨500, PledgeStatus.captured, none, some "piB", 6, 4⟩)],
         [], [], 12⟩ 4 2 UserRole.teacher (fun k => k == 10)).1.pledges 11
      = some ⟨500, PledgeStatus.captured, none, some "piB", 6, 4⟩
    ∧ AList.lookup (cancel_project
        ⟨[], [(1, ⟨RequestStatus.accepted, 3, some 2, true⟩)], [], [],
         [(4, ⟨1200, 1200, ProjectStatus.funding, false, none, some 1,
            some 2, false, none, none⟩)],
         [(10, ⟨700, PledgeStatus.captured, none, some "piA", 5, 4⟩),
          (11, ⟨500, PledgeStatus.captured, none, some "piB", 6, 4⟩)],
         [], [], 12⟩ 4 2 UserRole.teacher (fun k => k == 10)).1.projects 4
      = some ⟨1200, 1200, ProjectStatus.cancelled, false, none, some 1,
          some 2, false, none, none⟩
    ∧ AList.lookup (cancel_project
        ⟨[], [(1, ⟨RequestStatus.accepted, 3, some 2, true⟩)], [], [],
         [(4, ⟨1200, 1200, ProjectStatus.funding, false, none, some 1,
            some 2, false, none, none⟩)],
         [(10, ⟨700, PledgeStatus.captured, none, some "piA", 5, 4⟩),
          (11, ⟨500, PledgeStatus.captured, none, some "piB", 6, 4⟩)],
         [], [], 12⟩ 4 2 UserRole.teacher (fun k => k == 10)).1.requests 1
      = some ⟨RequestStatus.open_, 3, none, false⟩
    ∧ (cancel_project
        ⟨[], [(1, ⟨RequestStatus.accepted, 3, some 2, true⟩)], [], [],
         [(4, ⟨1200, 1200, ProjectStatus.funding, false, none, some 1,
            some 2, false, none, none⟩)],
         [(10, ⟨700, PledgeStatus.captured, none, some "piA", 5, 4⟩),
          (11, ⟨500, PledgeStatus.captured, none, some "piB", 6, 4⟩)],
         [], [], 12⟩ 4 2 UserRole.teacher (fun k => k == 10)).1.blacklist
      = [⟨1, 2⟩] := by
  have h := C9_cancel_project_effects
    ⟨[], [(1, ⟨RequestStatus.accepted, 3, some 2, true⟩)], [], [],
     [(4, ⟨1200, 1200, ProjectStatus.funding, false, none, some 1,
        some 2, false, none, none⟩)],
     [(10, ⟨700, PledgeStatus.captured, none, some "piA", 5, 4⟩),
      (11, ⟨500, PledgeStatus.captured, none, some "piB", 6, 4⟩)],
     [], [], 12⟩ 4 2 UserRole.teacher (fun k => k == 10)
    ⟨1200, 1200, ProjectStatus.funding, false, none, some 1, some 2, false,
      none, none⟩
    ⟨RequestStatus.accepted, 3, some 2, true⟩ 1 2
    (by decide) (Or.inl (by decide)) (by decide) (by decide) (by decide)
    (by decide) (by decide) (by decide)
  refine ⟨h.1, ?_, ?_, h.2.2.1, h.2.2.2.1, h.2.2.2.2⟩
  · have h10 := h.2.1 10 ⟨700, PledgeStatus.captured, none, some "piA", 5, 4⟩
      (by decide)
    simpa using h10
  · have h11 := h.2.1 11 ⟨500, PledgeStatus.captured, none, some "piB", 6, 4⟩
      (by decide)
    simpa using h11



/-- Claim C7 (amended): with an authorized caller, direct creation of a
series project derives `funding_goal = price_per_video * num_videos`
whenever `price_per_video` is present and nonzero and `num_videos > 0`;
a missing field or `num_videos <= 0` is rejected, as are series fields on
a non-series project; and a series offer whose fields are present and
nonzero, once accepted, yields a project satisfying the equation.  (The
zero-price loophole is exhibited separately.) -/
theorem C7_series_goal (s : St) (p : ProjectCreate) (cid : Nat)
    (role : UserRole)
    (hrole : role = UserRole.teacher ∨ role = UserRole.admin) :
    (∀ pv nv : Int, p.is_series = true → p.price_per_video = some pv →
      pv ≠ 0 → p.num_videos = some nv → 0 < nv →
      create_project s p cid role
        = ({ s with projects := s.projects ++ [(s.nextId, build_project p cid (pv * nv))], nextId := s.nextId + 1 },
           Except.ok s.nextId)
      ∧ (build_project p cid (pv * nv)).funding_goal
          = (build_project p cid (pv * nv)).price_per_video.getD 0
            * (build_project p cid (pv * nv)).num_videos.getD 0)
    ∧ (p.is_series = true →
        (p.price_per_video = none ∨ p.num_videos = none
          ∨ p.num_videos.getD 0 ≤ 0) →
        create_project s p cid role
          = (s, Except.error ApiError.seriesFieldsMissing))
    ∧ (p.is_series = false →
        (p.price_per_video.isSome ∨ p.num_videos.isSome) →
        create_project s p cid role
          = (s, Except.error ApiError.seriesFieldsOnNonSeries))
    ∧ (∀ (t : St) (convId : Nat) (o : OfferCreate) (conv : Conversation)
        (req : Request) (pv nv : Int),
        AList.lookup t.conversations convId = some conv →
        conv.status ≠ ConversationStatus.closed →
        o.is_series = some true →
        o.price_per_video = some pv → pv ≠ 0 →
        o.num_videos = some nv → 0 < nv →
        AList.lookup t.requests conv.request_id = some req →
        AList.lookup t.messages t.nextId = none →
        AList.lookup t.projects (t.nextId + 1) = none →
        AList.lookup (accept_offer (make_offer t convId o conv.teacher_id).1 t.nextId conv.student_id).1.projects (t.nextId + 1)
          = some ⟨pv * nv, 0, ProjectStatus.funding, false, none, some conv.request_id, some conv.teacher_id, true, some nv, some pv⟩
        ∧ (accept_offer (make_offer t convId o conv.teacher_id).1 t.nextId conv.student_id).2
            = Except.ok (t.nextId + 1)) := by
  have hnrole : ¬(role ≠ UserRole.teacher ∧ role ≠ UserRole.admin) :=
    fun h => hrole.elim h.1 h.2
  refine ⟨?_, ?_, ?_, ?_⟩
  · intro pv nv hser hpv hpvne hnv hnvpos
    have hcond : (p.is_series && truthyInt p.price_per_video
        && truthyInt p.num_videos && decide (0 < p.num_videos.getD 0))
        = true := by
      simp [hser, hpv, hnv, truthyInt, hpvne, hnvpos, hnvpos.ne']
    constructor
    · simp only [create_project]
      rw [if_neg hnrole, if_pos hcond]
      simp [hpv, hnv]
    · simp [build_project, hpv, hnv]
  · intro hser hbad
    have hc1 : (p.is_series && truthyInt p.price_per_video
        && truthyInt p.num_videos && decide (0 < p.num_videos.getD 0))
        = false := by
      rcases hbad with h | h | h
      · simp [h, truthyInt]
      · simp [h, truthyInt]
      · simp [decide_eq_false (Int.not_lt.mpr h)]
    have hc2 : (p.is_series && (p.price_per_video.isNone
        || p.num_videos.isNone || decide (p.num_videos.getD 0 ≤ 0)))
        = true := by
      rcases hbad with h | h | h <;> simp [hser, h]
    simp only [create_project]
    rw [if_neg hnrole, if_neg (by simp [hc1]), if_pos hc2]
  · intro hser hsome
    have hc1 : (p.is_series && truthyInt p.price_per_video
        && truthyInt p.num_videos && decide (0 < p.num_videos.getD 0))
        = false := by simp [hser]
    have hc2 : (p.is_series && (p.price_per_video.isNone
        || p.num_videos.isNone || decide (p.num_videos.getD 0 ≤ 0)))
        = false := by simp [hser]
    have hc3 : (!p.is_series && (p.price_per_video.isSome
        || p.num_videos.isSome)) = true := by
      rcases hsome with h | h <;> simp [hser, h]
    simp only [create_project]
    rw [if_neg hnrole, if_neg (by simp [hc1]), if_neg (by simp [hc2]),
      if_pos hc3]
  · intro t convId o conv req pv nv hconv hopen hser hpv hpvne hnv hnvpos
      hreq hmfresh hpfresh
    have hmo : make_offer t convId o conv.teacher_id
        = ({ t with messages := t.messages ++ [(t.nextId, ⟨convId, MessageType.offer, some OfferStatus.pending, some (pv * nv), some true, some nv, some pv⟩)], nextId := t.nextId + 1 },
           Except.ok t.nextId) := by
      simp only [make_offer, hconv]
      rw [if_neg (not_not_intro rfl), if_neg hopen]
      have hc : ((o.is_series == some true) && truthyInt o.price_per_video
          && truthyInt o.num_videos && decide (0 < o.num_videos.getD 0))
          = true := by
        simp [hser, hpv, hnv, truthyInt, hpvne, hnvpos, hnvpos.ne']
      simp only [hc]
      simp [hpv, hnv, hser]
    have hm1 : AList.lookup (t.messages ++ [(t.nextId, (⟨convId, MessageType.offer, some OfferStatus.pending, some (pv * nv), some true, some nv, some pv⟩ : Message))]) t.nextId
        = some ⟨convId, MessageType.offer, some OfferStatus.pending, some (pv * nv), some true, some nv, some pv⟩ := by
      rw [AList.lookup_append_right _ _ _ hmfresh]
      simp [AList.lookup]
    constructor
    · rw [hmo]
      dsimp only
      simp only [accept_offer, hm1, hconv]
      rw [if_neg (not_not_intro rfl), if_neg (not_not_intro rfl),
        if_neg (not_not_intro rfl), hreq]
      dsimp only
      rw [AList.lookup_append_right _ _ _ hpfresh]
      simp [AList.lookup]
    · rw [hmo]
      dsimp only
      simp only [accept_offer, hm1, hconv]
      rw [if_neg (not_not_intro rfl), if_neg (not_not_intro rfl),
        if_neg (not_not_intro rfl), hreq]

/-- Counterexample for C7 as stated: a series project created with
`price_per_video = 0`, `num_videos = 2` and a client-supplied
`funding_goal = 500` is accepted (Python truthiness skips both the
derivation and the missing-fields rejection), and `500 ≠ 0 * 2`. -/
theorem C7_counterexample :
    (create_project ⟨[], [], [], [], [], [], [], [], 1⟩
        ⟨500, true, some 2, some 0⟩ 7 UserRole.teacher).2 = Except.ok 1
    ∧ AList.lookup (create_project ⟨[], [], [], [], [], [], [], [], 1⟩
        ⟨500, true, some 2, some 0⟩ 7 UserRole.teacher).1.projects 1
      = some ⟨500, 0, ProjectStatus.funding, false, none, none, some 7,
          true, some 2, some 0⟩
    ∧ (500 : Int) ≠ 0 * 2 := ⟨rfl, by decide, by decide⟩

/-- Witness for C7: the derivation (`500 * 4 = 2000`), the two
rejections, and the offer path on concrete stores. -/
theorem C7_series_goal_witness :
    create_project ⟨[], [], [], [], [], [], [], [], 1⟩
        ⟨0, true, some 4, some 500⟩ 7 UserRole.teacher
      = (⟨[], [], [], [], [(1, ⟨2000, 0, ProjectStatus.funding, false, none, none, some 7, true, some 4, some 500⟩)], [], [], [], 2⟩,
         Except.ok 1)
    ∧ create_project ⟨[], [], [], [], [], [], [], [], 1⟩
        ⟨300, true, none, some 500⟩ 7 UserRole.teacher
      = (⟨[], [], [], [], [], [], [], [], 1⟩,
         Except.error ApiError.seriesFieldsMissing)
    ∧ create_project ⟨[], [], [], [], [], [], [], [], 1⟩
        ⟨300, false, some 4, none⟩ 7 UserRole.teacher
      = (⟨[], [], [], [], [], [], [], [], 1⟩,
         Except.error ApiError.seriesFieldsOnNonSeries)
    ∧ AList.lookup (accept_offer
        (make_offer
          ⟨[], [(1, ⟨RequestStatus.negotiating, 3, none, false⟩)],
           [(2, ⟨1, 4, 3, ConversationStatus.open_⟩)], [], [], [], [], [],
           9⟩ 2 ⟨100, some true, some 4, some 500⟩ 4).1 9 3).1.projects 10
      = some ⟨2000, 0, ProjectStatus.funding, false, none, some 1, some 4,
          true, some 4, some 500⟩ := by
  have h1 := C7_series_goal ⟨[], [], [], [], [], [], [], [], 1⟩
    ⟨0, true, some 4, some 500⟩ 7 UserRole.teacher (Or.inl rfl)
  have h2 := C7_series_goal ⟨[], [], [], [], [], [], [], [], 1⟩
    ⟨300, true, none, some 500⟩ 7 UserRole.teacher (Or.inl rfl)
  have h3 := C7_series_goal ⟨[], [], [], [], [], [], [], [], 1⟩
    ⟨300, false, some 4, none⟩ 7 UserRole.teacher (Or.inl rfl)
  refine ⟨?_, ?_, ?_, ?_⟩
  · have := (h1.1 500 4 rfl rfl (by decide) rfl (by decide)).1
    simpa [build_project] using this
  · exact h2.2.1 rfl (Or.inr (Or.inl rfl))
  · exact h3.2.2.1 rfl (Or.inr rfl)
  · have := (h1.2.2.2
      ⟨[], [(1, ⟨RequestStatus.negotiating, 3, none, false⟩)],
       [(2, ⟨1, 4, 3, ConversationStatus.open_⟩)], [], [], [], [], [], 9⟩
      2 ⟨100, some true, some 4, some 500⟩ ⟨1, 4, 3, ConversationStatus.open_⟩
      ⟨RequestStatus.negotiating, 3, none, false⟩ 500 4
      (by decide) (by decide) rfl rfl (by decide) rfl (by decide)
      (by decide) (by decide) (by decide)).1
    simpa using this


end CompInput
